import Mathlib

/-!
# RTP RED encoder (`gst/rtp/gstrtpredenc.c`)

A shallow embedding of the RED (RFC 2198) encoder element: the history queue of
recent payloads, the selection of the redundant block, the construction of the
RED packet and the caps (format) announcements made on the source pad.

Conventions of the embedding:

* the element instance `GstRtpRedEnc` is passed explicitly; a function that
  mutates `self` returns the new instance;
* what the element sends on its source pad is returned as a list of
  `Downstream` items, in emission order;
* `g_assert` failures and dereferences of a null pointer are the result `none`;
* `guint32` arithmetic is arithmetic on `Nat` reduced modulo `2 ^ 32`;
* the history `GQueue` is a list whose first element is the queue head and
  whose last element is the queue tail.
-/

namespace RtpRedEnc

/-! ## Data model -/

/-- Caps carried by a caps event: the `payload` field of its first structure and
the other fields, which the element never looks at. -/
structure GstCaps where
  payload : Option Nat
  fields : List (String × String)
deriving DecidableEq

/-- The RTP packet held by a buffer, field by field. -/
structure RTPPacket where
  marker : Bool
  payload_type : Nat
  seq : Nat
  timestamp : Nat
  ssrc : Nat
  csrc : List Nat
  extension : Bool
  payload : List Nat
deriving DecidableEq

/-- Contents of a buffer: a well-formed RTP packet, or bytes that do not map as one. -/
inductive GstBufferData where
  | rtp (pkt : RTPPacket)
  | raw (bytes : List Nat)
deriving DecidableEq

/-- A `GstBuffer`: its metadata (flags and buffer timestamps, the part copied by
`GST_BUFFER_COPY_METADATA`) and its contents. -/
structure GstBuffer where
  metadata : Nat
  data : GstBufferData
deriving DecidableEq

/-- A mapped RTP buffer (`GstRTPBuffer`): the buffer it maps and the packet read from it. -/
structure GstRTPBuffer where
  buffer : GstBuffer
  pkt : RTPPacket
deriving DecidableEq

/-- The struct `RTPHistItem`; `payload` is the content of the payload buffer. -/
structure RTPHistItem where
  pt : Nat
  timestamp : Nat
  payload : List Nat
deriving DecidableEq

/-- Events travelling through the element: caps events and all the others. -/
inductive GstEvent where
  | caps (c : GstCaps)
  | other (tag : Nat)
deriving DecidableEq

/-- What the element sends on its source pad: an event (`gst_pad_push_event`, or
the default forwarding of `gst_pad_event_default`) or a buffer (`gst_pad_push`).
The flag of a buffer records the `is_red` argument `_pad_push` was called with,
that is the framing mode under which the buffer is sent. -/
inductive Downstream where
  | event (e : GstEvent)
  | buffer (b : GstBuffer) (is_red : Bool)
deriving DecidableEq

/-- The instance struct `GstRtpRedEnc` (declared in `gstrtpredenc.h`), with the
fields the source file reads and writes. `sinkpad_caps` stands for what
`gst_pad_get_current_caps (self->sinkpad)` returns: the caps of the last caps
event received on the sink pad. -/
structure GstRtpRedEnc where
  pt : Nat
  num_sent : Nat
  distance : Nat
  allow_no_red_blocks : Bool
  is_current_caps_red : Bool
  send_caps : Bool
  rtp_history : List RTPHistItem
  sinkpad_caps : GstCaps
deriving DecidableEq

/-- Properties that `gst_rtp_red_enc_set_property` can be called with, with the
value to set; `other` is any property id the switch does not handle. -/
inductive PropertySet where
  | PROP_PT (value : Nat)
  | PROP_DISTANCE (value : Nat)
  | PROP_ALLOW_NO_RED_BLOCKS (value : Bool)
  | other
deriving DecidableEq

/-- One call into the element from outside. -/
inductive Input where
  | chain (buffer : GstBuffer)
  | event (e : GstEvent)
  | set_property (p : PropertySet)
deriving DecidableEq

/-! ## Machine integers and the RTP buffer interface -/

def DEFAULT_PT : Nat := 0

def DEFAULT_DISTANCE : Nat := 0

def DEFAULT_ALLOW_NO_RED_BLOCKS : Bool := false

/-- Subtraction of two `guint32` values. -/
def guint32_sub (a b : Nat) : Nat :=
  (a % 4294967296 + 4294967296 - b % 4294967296) % 4294967296

/-- Conversion of a `guint32` value to `gint32` (two's complement). -/
def gint32_of_guint32 (a : Nat) : Int :=
  if a % 4294967296 < 2147483648 then (a % 4294967296 : Nat) else (a % 4294967296 : Nat) - 4294967296

/-- Increment of a `guint` counter. -/
def guint_incr (a : Nat) : Nat :=
  (a + 1) % 4294967296

def gst_rtp_buffer_map (buffer : GstBuffer) : Option GstRTPBuffer :=
  match buffer.data with
  | GstBufferData.rtp pkt => some { buffer := buffer, pkt := pkt }
  | GstBufferData.raw _ => none

/-- The 7-bit payload type field. -/
def gst_rtp_buffer_get_payload_type (rtp : GstRTPBuffer) : Nat :=
  rtp.pkt.payload_type % 128

/-- The 32-bit timestamp field. -/
def gst_rtp_buffer_get_timestamp (rtp : GstRTPBuffer) : Nat :=
  rtp.pkt.timestamp % 4294967296

/-- The 16-bit sequence number field. -/
def gst_rtp_buffer_get_seq (rtp : GstRTPBuffer) : Nat :=
  rtp.pkt.seq % 65536

/-- The 32-bit SSRC field. -/
def gst_rtp_buffer_get_ssrc (rtp : GstRTPBuffer) : Nat :=
  rtp.pkt.ssrc % 4294967296

def gst_rtp_buffer_get_marker (rtp : GstRTPBuffer) : Bool :=
  rtp.pkt.marker

def gst_rtp_buffer_get_extension (rtp : GstRTPBuffer) : Bool :=
  rtp.pkt.extension

def gst_rtp_buffer_get_csrc_count (rtp : GstRTPBuffer) : Nat :=
  rtp.pkt.csrc.length

/-- The `idx`-th contributing source, a 32-bit value. -/
def gst_rtp_buffer_get_csrc (rtp : GstRTPBuffer) (idx : Nat) : Nat :=
  rtp.pkt.csrc.getD idx 0 % 4294967296

/-- The payload of the packet as a buffer of its own. -/
def gst_rtp_buffer_get_payload_buffer (rtp : GstRTPBuffer) : List Nat :=
  rtp.pkt.payload

def gst_buffer_get_size (payload : List Nat) : Nat :=
  payload.length

/-- A fresh RTP packet with `payload_len` payload bytes, no padding and
`csrc_count` contributing sources, all fields zero and no extension. -/
def gst_rtp_buffer_new_allocate (payload_len csrc_count : Nat) : RTPPacket :=
  { marker := false, payload_type := 0, seq := 0, timestamp := 0, ssrc := 0,
    csrc := List.replicate csrc_count 0, extension := false,
    payload := List.replicate payload_len 0 }

/-- Appending a payload buffer to a buffer: the bytes are added at the end of its contents. -/
def gst_buffer_append (buf : GstBuffer) (bytes : List Nat) : GstBuffer :=
  match buf.data with
  | GstBufferData.rtp pkt =>
    { buf with data := GstBufferData.rtp { pkt with payload := pkt.payload ++ bytes } }
  | GstBufferData.raw b => { buf with data := GstBufferData.raw (b ++ bytes) }

/-! ## RED block headers (`rtpredcommon.h`) -/

/-- Modelled from the spec: the constant `RED_BLOCK_TIMESTAMP_OFFSET_MAX` of
`rtpredcommon.h`, the 14-bit maximum value. -/
def RED_BLOCK_TIMESTAMP_OFFSET_MAX : Nat := 16383

/-- Modelled from the spec: the constant `RED_BLOCK_LENGTH_MAX` of
`rtpredcommon.h`, the 10-bit maximum value. -/
def RED_BLOCK_LENGTH_MAX : Nat := 1023

/-- Modelled from the spec: `rtp_red_block_header_get_length` of `rtpredcommon.c`;
a non-last block header is 4 bytes, the final block header is 1 byte. -/
def rtp_red_block_header_get_length (is_redundant : Bool) : Nat :=
  if is_redundant then 4 else 1

/-- Modelled from the spec: `rtp_red_block_set_is_redundant` of `rtpredcommon.c`;
the marker is the top bit of the first header byte, the other bits are kept. -/
def rtp_red_block_set_is_redundant (mem : List Nat) (hdr : Nat) (is_redundant : Bool) : List Nat :=
  mem.set hdr (mem.getD hdr 0 % 128 + (if is_redundant then 128 else 0))

/-- Modelled from the spec: `rtp_red_block_set_payload_type` of `rtpredcommon.c`;
the payload type is the low 7 bits of the first header byte, the marker bit is kept. -/
def rtp_red_block_set_payload_type (mem : List Nat) (hdr : Nat) (pt : Nat) : List Nat :=
  mem.set hdr (mem.getD hdr 0 % 256 / 128 * 128 + pt % 128)

/-- Modelled from the spec: `rtp_red_block_set_timestamp_offset` of `rtpredcommon.c`;
the 14-bit offset is the second header byte and the top 6 bits of the third,
whose low 2 bits are kept. -/
def rtp_red_block_set_timestamp_offset (mem : List Nat) (hdr : Nat) (timestamp_offset : Nat) :
    List Nat :=
  (mem.set (hdr + 1) (timestamp_offset / 64 % 256)).set (hdr + 2)
    (timestamp_offset % 64 * 4 + mem.getD (hdr + 2) 0 % 4)

/-- Modelled from the spec: `rtp_red_block_set_payload_length` of `rtpredcommon.c`;
the 10-bit length is the low 2 bits of the third header byte, whose top 6 bits
are kept, and the fourth byte. -/
def rtp_red_block_set_payload_length (mem : List Nat) (hdr : Nat) (length : Nat) : List Nat :=
  (mem.set (hdr + 2) (mem.getD (hdr + 2) 0 % 256 / 4 * 4 + length / 256 % 4)).set (hdr + 3)
    (length % 256)

/-! ## History items -/

def rtp_hist_item_init (_item : RTPHistItem) (rtp : GstRTPBuffer) (rtp_payload : List Nat) :
    RTPHistItem :=
  { pt := gst_rtp_buffer_get_payload_type rtp,
    timestamp := gst_rtp_buffer_get_timestamp rtp,
    payload := rtp_payload }

/-- The item is allocated zeroed (`g_slice_new0`) and then initialised. -/
def rtp_hist_item_new (rtp : GstRTPBuffer) (rtp_payload : List Nat) : RTPHistItem :=
  rtp_hist_item_init { pt := 0, timestamp := 0, payload := [] } rtp rtp_payload

/-- The old payload is released and the item initialised again in place. -/
def rtp_hist_item_replace (item : RTPHistItem) (rtp : GstRTPBuffer) (rtp_payload : List Nat) :
    RTPHistItem :=
  rtp_hist_item_init item rtp rtp_payload

/-! ## Packet construction -/

/-- A copy of the caps with the `payload` field set to `pt`, as a caps event. -/
def _create_caps_event (caps : GstCaps) (pt : Nat) : GstEvent :=
  GstEvent.caps { caps with payload := some pt }

/-- The loop copying the contributing sources: `i` runs from `i` up to `csrc_count`,
`n` is the number of iterations left. -/
def copy_csrc (inp_rtp : GstRTPBuffer) : Nat → Nat → List Nat → List Nat
  | 0, _, csrc => csrc
  | n + 1, i, csrc => copy_csrc inp_rtp n (i + 1) (csrc.set i (gst_rtp_buffer_get_csrc inp_rtp i))

def _alloc_red_packet_and_fill_headers (self : GstRtpRedEnc)
    (redundant_block : Option RTPHistItem) (inp_rtp : GstRTPBuffer) : GstBuffer :=
  let red_header_size := rtp_red_block_header_get_length false +
    (if redundant_block.isSome then rtp_red_block_header_get_length true else 0)
  let timestmap := gst_rtp_buffer_get_timestamp inp_rtp
  let csrc_count := gst_rtp_buffer_get_csrc_count inp_rtp
  let red_rtp := gst_rtp_buffer_new_allocate red_header_size csrc_count
  let red_rtp := { red_rtp with marker := gst_rtp_buffer_get_marker inp_rtp }
  let red_rtp := { red_rtp with payload_type := self.pt }
  let red_rtp := { red_rtp with seq := gst_rtp_buffer_get_seq inp_rtp }
  let red_rtp := { red_rtp with timestamp := timestmap }
  let red_rtp := { red_rtp with ssrc := gst_rtp_buffer_get_ssrc inp_rtp }
  let red_rtp := { red_rtp with csrc := copy_csrc inp_rtp csrc_count 0 red_rtp.csrc }
  let mem := red_rtp.payload
  let red_block_header := 0
  let filled : List Nat × Nat :=
    match redundant_block with
    | some block =>
      let mem := rtp_red_block_set_is_redundant mem red_block_header true
      let mem := rtp_red_block_set_payload_type mem red_block_header block.pt
      let mem := rtp_red_block_set_timestamp_offset mem red_block_header
        (guint32_sub timestmap block.timestamp)
      let mem := rtp_red_block_set_payload_length mem red_block_header
        (gst_buffer_get_size block.payload)
      (mem, red_block_header + rtp_red_block_header_get_length true)
    | none => (mem, red_block_header)
  let mem := rtp_red_block_set_is_redundant filled.1 filled.2 false
  let mem := rtp_red_block_set_payload_type mem filled.2
    (gst_rtp_buffer_get_payload_type inp_rtp)
  { metadata := inp_rtp.buffer.metadata,
    data := GstBufferData.rtp { red_rtp with payload := mem } }

def _create_red_packet (self : GstRtpRedEnc) (rtp : GstRTPBuffer)
    (redundant_block : Option RTPHistItem) (main_block : List Nat) : GstBuffer :=
  let red := _alloc_red_packet_and_fill_headers self redundant_block rtp
  let red :=
    match redundant_block with
    | some block => gst_buffer_append red block.payload
    | none => red
  gst_buffer_append red main_block

/-! ## The history queue -/

/-- Returns `some none` for `NULL` (no redundant block), `some (some item)` for
the selected item, and `none` when the assertion on the history length fails. -/
def _red_history_get_redundant_block (self : GstRtpRedEnc) (current_timestamp : Nat)
    (distance : Nat) : Option (Option RTPHistItem) :=
  if distance = 0 ∨ self.rtp_history.length = 0 then some none
  else
    match self.rtp_history.getLast? with
    | none => none
    | some item =>
      let timestamp_offset : Int := gint32_of_guint32 (guint32_sub current_timestamp item.timestamp)
      if timestamp_offset > (RED_BLOCK_TIMESTAMP_OFFSET_MAX : Nat) then some none
      else if timestamp_offset < 0 then some none
      else if gst_buffer_get_size item.payload > RED_BLOCK_LENGTH_MAX then some none
      else if ¬ (self.rtp_history.length ≤ distance) then none
      else some (some item)

/-- The payload is `none` for a `NULL` pointer; the result is `none` when the
assertion `NULL != rtp_payload` fails. -/
def _red_history_prepend (self : GstRtpRedEnc) (rtp : GstRTPBuffer)
    (rtp_payload : Option (List Nat)) (max_history_length : Nat) : Option GstRtpRedEnc :=
  if max_history_length = 0 then some self
  else
    match rtp_payload with
    | none => none
    | some payload =>
      if self.rtp_history.length ≥ max_history_length then
        match self.rtp_history.getLast? with
        | none => none
        | some data =>
          some { self with
            rtp_history := rtp_hist_item_replace data rtp payload :: self.rtp_history.dropLast }
      else
        some { self with rtp_history := rtp_hist_item_new rtp payload :: self.rtp_history }

/-- The loop of `_red_history_trim`, with `n` iterations left at most. -/
def trim_loop (max_history_length : Nat) : Nat → List RTPHistItem → List RTPHistItem
  | 0, hist => hist
  | n + 1, hist =>
    if max_history_length < hist.length then trim_loop max_history_length n hist.dropLast
    else hist

/-- Each iteration removes one item, so the loop runs `length` times at most. -/
def _red_history_trim (self : GstRtpRedEnc) (max_history_length : Nat) : GstRtpRedEnc :=
  { self with
    rtp_history := trim_loop max_history_length self.rtp_history.length self.rtp_history }

/-! ## Pushing downstream -/

def _pad_push (self : GstRtpRedEnc) (buffer : GstBuffer) (is_red : Bool) :
    GstRtpRedEnc × List Downstream :=
  if self.send_caps ∨ is_red ≠ self.is_current_caps_red then
    let caps := self.sinkpad_caps
    let event := if is_red then _create_caps_event caps self.pt else GstEvent.caps caps
    ({ self with send_caps := false, is_current_caps_red := is_red },
      [Downstream.event event, Downstream.buffer buffer is_red])
  else (self, [Downstream.buffer buffer is_red])

def _push_nonred_packet (self : GstRtpRedEnc) (rtp : GstRTPBuffer) (buffer : GstBuffer)
    (distance : Nat) : Option (GstRtpRedEnc × List Downstream) :=
  let main_block := if distance > 0 then some (gst_rtp_buffer_get_payload_buffer rtp) else none
  match _red_history_prepend self rtp main_block distance with
  | none => none
  | some self => some (_pad_push self buffer false)

def _push_red_packet (self : GstRtpRedEnc) (rtp : GstRTPBuffer) (_buffer : GstBuffer)
    (redundant_block : Option RTPHistItem) (distance : Nat) :
    Option (GstRtpRedEnc × List Downstream) :=
  let main_block := gst_rtp_buffer_get_payload_buffer rtp
  let red_buffer := _create_red_packet self rtp redundant_block main_block
  match _red_history_prepend self rtp (some main_block) distance with
  | none => none
  | some self =>
    let self := { self with num_sent := guint_incr self.num_sent }
    some (_pad_push self red_buffer true)

def gst_rtp_red_enc_chain (self : GstRtpRedEnc) (buffer : GstBuffer) :
    Option (GstRtpRedEnc × List Downstream) :=
  let distance := self.distance
  let only_with_redundant_data := !self.allow_no_red_blocks
  let self := _red_history_trim self distance
  if distance = 0 ∧ only_with_redundant_data = true then some (_pad_push self buffer false)
  else
    match gst_rtp_buffer_map buffer with
    | none => some (_pad_push self buffer self.is_current_caps_red)
    | some rtp =>
      match _red_history_get_redundant_block self (gst_rtp_buffer_get_timestamp rtp) distance with
      | none => none
      | some redundant_block =>
        if redundant_block = none ∧ only_with_redundant_data = true then
          _push_nonred_packet self rtp buffer distance
        else _push_red_packet self rtp buffer redundant_block distance

/-! ## Events, properties, initialisation -/

def gst_rtp_red_enc_event_sink (self : GstRtpRedEnc) (event : GstEvent) :
    GstRtpRedEnc × List Downstream :=
  match event with
  | GstEvent.caps caps =>
    let replace_with_red_caps := self.is_current_caps_red || self.allow_no_red_blocks
    if replace_with_red_caps = true then
      ({ self with is_current_caps_red := true },
        [Downstream.event (_create_caps_event caps self.pt)])
    else (self, [Downstream.event event])
  | GstEvent.other _ => (self, [Downstream.event event])

def gst_rtp_red_enc_set_property (self : GstRtpRedEnc) (p : PropertySet) : GstRtpRedEnc :=
  match p with
  | PropertySet.PROP_PT value =>
    let prev_pt := self.pt
    let self := { self with pt := value }
    { self with send_caps := decide (self.pt ≠ prev_pt) && self.is_current_caps_red }
  | PropertySet.PROP_DISTANCE value => { self with distance := value }
  | PropertySet.PROP_ALLOW_NO_RED_BLOCKS value => { self with allow_no_red_blocks := value }
  | PropertySet.other => self

/-- The instance memory is zero-filled when the object is created; `caps` is the
current caps of the sink pad. -/
def instance_zeroed (caps : GstCaps) : GstRtpRedEnc :=
  { pt := 0, num_sent := 0, distance := 0, allow_no_red_blocks := false,
    is_current_caps_red := false, send_caps := false, rtp_history := [], sinkpad_caps := caps }

def gst_rtp_red_enc_init (self : GstRtpRedEnc) : GstRtpRedEnc :=
  { self with
    pt := DEFAULT_PT, distance := DEFAULT_DISTANCE,
    allow_no_red_blocks := DEFAULT_ALLOW_NO_RED_BLOCKS, num_sent := 0, rtp_history := [] }

/-! ## The element as a transition system -/

/-- One call into the element. A caps event that reaches the sink pad becomes
the current caps of that pad. -/
def step (self : GstRtpRedEnc) (i : Input) : Option (GstRtpRedEnc × List Downstream) :=
  match i with
  | Input.chain buffer => gst_rtp_red_enc_chain self buffer
  | Input.event e =>
    let r := gst_rtp_red_enc_event_sink self e
    match e with
    | GstEvent.caps c => some ({ r.1 with sinkpad_caps := c }, r.2)
    | GstEvent.other _ => some r
  | Input.set_property p => some (gst_rtp_red_enc_set_property self p, [])

/-- A sequence of calls, with everything sent downstream in order. -/
def run (self : GstRtpRedEnc) : List Input → Option (GstRtpRedEnc × List Downstream)
  | [] => some (self, [])
  | i :: rest =>
    match step self i with
    | none => none
    | some (s, out) =>
      match run s rest with
      | none => none
      | some (s', out') => some (s', out ++ out')

/-- The buffers of a downstream trace, in order. -/
def data_packets : List Downstream → List GstBuffer
  | [] => []
  | Downstream.event _ :: rest => data_packets rest
  | Downstream.buffer b _ :: rest => b :: data_packets rest

/-! ## The end-to-end scenario of the specification

Distance 1, bare RED packets not allowed; frame 1 has timestamp 100 and payload
"A", frame 2 has timestamp 160 and payload "B". -/

def scenario_caps : GstCaps :=
  { payload := some 8, fields := [("media", "audio"), ("clock-rate", "8000")] }

def packet_A : RTPPacket :=
  { marker := false, payload_type := 8, seq := 1, timestamp := 100, ssrc := 7, csrc := [5, 6],
    extension := false, payload := [65] }

def packet_B : RTPPacket :=
  { marker := true, payload_type := 9, seq := 2, timestamp := 160, ssrc := 7, csrc := [5, 6],
    extension := false, payload := [66] }

def frame_A : GstBuffer := { metadata := 1, data := GstBufferData.rtp packet_A }

def frame_B : GstBuffer := { metadata := 2, data := GstBufferData.rtp packet_B }

def item_A : RTPHistItem := { pt := 8, timestamp := 100, payload := [65] }

def item_B : RTPHistItem := { pt := 9, timestamp := 160, payload := [66] }

/-- A new element with the distance property set to 1. -/
def scenario_start : GstRtpRedEnc :=
  gst_rtp_red_enc_set_property (gst_rtp_red_enc_init (instance_zeroed scenario_caps))
    (PropertySet.PROP_DISTANCE 1)

/-- The element of the scenario after frame 1. -/
def scenario_after_A : GstRtpRedEnc :=
  { pt := 0, num_sent := 0, distance := 1, allow_no_red_blocks := false,
    is_current_caps_red := false, send_caps := false, rtp_history := [item_A],
    sinkpad_caps := scenario_caps }

/-- The history item made from a frame when it is pushed to the history: none
for a buffer that does not map as an RTP packet. -/
def hist_item_of_buffer (b : GstBuffer) : Option RTPHistItem :=
  match gst_rtp_buffer_map b with
  | some rtp => some (rtp_hist_item_new rtp (gst_rtp_buffer_get_payload_buffer rtp))
  | none => none

/-- A history built by pushes alone: each frame is pushed with its payload and
with a bound of its own. -/
def prepend_all (self : GstRtpRedEnc) : List (GstRTPBuffer × Nat) → Option GstRtpRedEnc
  | [] => some self
  | (rtp, bound) :: rest =>
    match _red_history_prepend self rtp (some (gst_rtp_buffer_get_payload_buffer rtp)) bound with
    | none => none
    | some s => prepend_all s rest

/-- The two operations on the history, each with the bound it is called with. -/
inductive HistoryOp where
  | prepend (rtp : GstRTPBuffer) (rtp_payload : List Nat) (max_history_length : Nat)
  | trim (max_history_length : Nat)
deriving DecidableEq

/-- The bound passed to a history operation. -/
def HistoryOp.bound : HistoryOp → Nat
  | HistoryOp.prepend _ _ max_history_length => max_history_length
  | HistoryOp.trim max_history_length => max_history_length

/-- One history operation applied to the element. -/
def apply_history_op (self : GstRtpRedEnc) : HistoryOp → Option GstRtpRedEnc
  | HistoryOp.prepend rtp rtp_payload max_history_length =>
    _red_history_prepend self rtp (some rtp_payload) max_history_length
  | HistoryOp.trim max_history_length => some (_red_history_trim self max_history_length)

/-- A sequence of history operations applied in order. -/
def apply_history_ops (self : GstRtpRedEnc) : List HistoryOp → Option GstRtpRedEnc
  | [] => some self
  | op :: rest =>
    match apply_history_op self op with
    | none => none
    | some s => apply_history_ops s rest

/-- The buffers of a downstream trace, each with the framing mode it was sent under. -/
def tagged_packets : List Downstream → List (GstBuffer × Bool)
  | [] => []
  | Downstream.event _ :: rest => tagged_packets rest
  | Downstream.buffer b is_red :: rest => (b, is_red) :: tagged_packets rest

/-- The frames among the calls into the element, in order. -/
def frames_of : List Input → List GstBuffer
  | [] => []
  | Input.chain buffer :: rest => buffer :: frames_of rest
  | Input.event _ :: rest => frames_of rest
  | Input.set_property _ :: rest => frames_of rest

/-- The number of RED packets among the packets sent for the given frames: a
frame is either sent as it is or replaced by the RED packet built from it, so
the RED packets are the packets that differ from their frame. -/
def red_packets_emitted : List GstBuffer → List GstBuffer → Nat
  | frame :: frames, packet :: packets =>
    (if packet = frame then 0 else 1) + red_packets_emitted frames packets
  | _, _ => 0

/-- The buffers of a sequence that map as RTP packets, in order: the frames that
the chain function can push to the history. -/
def rtp_frames (bufs : List GstBuffer) : List GstBuffer :=
  bufs.filter (fun b => (gst_rtp_buffer_map b).isSome)

/-- A buffer that does not map as an RTP packet. -/
def raw_frame : GstBuffer := { metadata := 3, data := GstBufferData.raw [1, 2, 3] }

/-- The framing mode of the packet sent for a frame, read from the frame and the
packet: with distance 0 and bare RED packets not allowed every frame goes out as
plain; otherwise a buffer that does not map as an RTP packet goes out under the
tracked mode, and an RTP frame goes out as RED when it was replaced by a RED
packet and as plain when it was forwarded as it is. -/
def packet_mode (distance : Nat) (allow_no_red_blocks : Bool) (tracked : Bool)
    (frame packet : GstBuffer) : Bool :=
  if distance = 0 ∧ allow_no_red_blocks = false then false
  else
    match gst_rtp_buffer_map frame with
    | none => tracked
    | some _ => decide (packet ≠ frame)

/-- The announcement rule in the words of the specification, for a run of frames
given with the packets sent for them: a caps event (RED caps with the output
payload type for a RED packet, the sink caps for a plain one) goes immediately
before a packet exactly when the framing mode of the packet differs from the
tracked mode or an announcement was requested; the tracked mode then becomes
the mode of that packet and no request is pending any more. -/
def announced_trace (caps : GstCaps) (pt distance : Nat) (allow_no_red_blocks : Bool) :
    Bool → Bool → List (GstBuffer × GstBuffer) → List Downstream
  | _, _, [] => []
  | pending, tracked, (frame, packet) :: rest =>
    (if pending = true ∨ packet_mode distance allow_no_red_blocks tracked frame packet ≠ tracked
      then
        [Downstream.event
          (if packet_mode distance allow_no_red_blocks tracked frame packet = true then
            _create_caps_event caps pt
          else GstEvent.caps caps)]
      else []) ++
      Downstream.buffer packet (packet_mode distance allow_no_red_blocks tracked frame packet) ::
        announced_trace caps pt distance allow_no_red_blocks false
          (packet_mode distance allow_no_red_blocks tracked frame packet) rest

/-! ## The history queue: basic facts -/

theorem trim_loop_eq_take (m : Nat) : ∀ (n : Nat) (hist : List RTPHistItem),
    hist.length ≤ m + n → trim_loop m n hist = hist.take m := by
  intro n
  induction n with
  | zero =>
    intro hist h
    simp only [trim_loop]
    exact (List.take_of_length_le (by omega)).symm
  | succ k ih =>
    intro hist h
    simp only [trim_loop]
    split
    · rename_i hlt
      rw [ih hist.dropLast (by simp only [List.length_dropLast]; omega)]
      rw [List.dropLast_eq_take, List.take_take]
      congr 1
      omega
    · rename_i hge
      exact (List.take_of_length_le (by omega)).symm

theorem trim_history (s : GstRtpRedEnc) (m : Nat) :
    (_red_history_trim s m).rtp_history = s.rtp_history.take m := by
  simp only [_red_history_trim]
  exact trim_loop_eq_take m _ _ (by omega)

theorem alloc_with_block (s : GstRtpRedEnc) (R : RTPHistItem) (rtp : GstRTPBuffer) :
    ∃ pkt, (_alloc_red_packet_and_fill_headers s (some R) rtp).data = GstBufferData.rtp pkt ∧
      pkt.payload = [128 + R.pt % 128,
         guint32_sub (gst_rtp_buffer_get_timestamp rtp) R.timestamp / 64 % 256,
         guint32_sub (gst_rtp_buffer_get_timestamp rtp) R.timestamp % 64 * 4 + R.payload.length / 256 % 4,
         R.payload.length % 256, gst_rtp_buffer_get_payload_type rtp] := by
  refine ⟨_, rfl, ?_⟩
  simp [_alloc_red_packet_and_fill_headers, gst_rtp_buffer_new_allocate, rtp_red_block_header_get_length,
    rtp_red_block_set_is_redundant, rtp_red_block_set_payload_type, rtp_red_block_set_timestamp_offset,
    rtp_red_block_set_payload_length, List.replicate, gst_buffer_get_size]
  refine ⟨by omega, ?_⟩
  unfold gst_rtp_buffer_get_payload_type
  omega

theorem guint32_sub_lt (a b : Nat) : guint32_sub a b < 4294967296 := by
  unfold guint32_sub; omega

theorem guint32_sub_of_le (a b : Nat) (ha : a < 4294967296) (hb : b ≤ a) :
    guint32_sub a b = a - b := by
  unfold guint32_sub; omega

theorem offset_checks_iff (x : Nat) (hx : x < 4294967296) :
    (¬ gint32_of_guint32 x > (RED_BLOCK_TIMESTAMP_OFFSET_MAX : Nat) ∧ ¬ gint32_of_guint32 x < 0) ↔
      x ≤ 16383 := by
  unfold gint32_of_guint32 RED_BLOCK_TIMESTAMP_OFFSET_MAX
  split <;> omega

theorem get_redundant_block_of_last (s : GstRtpRedEnc) (ts d : Nat) (item : RTPHistItem)
    (hd : d ≠ 0) (hlast : s.rtp_history.getLast? = some item) :
    _red_history_get_redundant_block s ts d =
      if guint32_sub ts item.timestamp ≤ 16383 ∧ item.payload.length ≤ 1023 then
        (if s.rtp_history.length ≤ d then some (some item) else none)
      else some none := by
  have hne : s.rtp_history.length ≠ 0 := by
    intro h
    rw [List.length_eq_zero] at h
    rw [h] at hlast
    simp at hlast
  have hoff := offset_checks_iff (guint32_sub ts item.timestamp) (guint32_sub_lt _ _)
  unfold _red_history_get_redundant_block
  rw [if_neg (by simp [hd, hne])]
  simp only [hlast, gst_buffer_get_size, RED_BLOCK_LENGTH_MAX]
  by_cases h1 : gint32_of_guint32 (guint32_sub ts item.timestamp) > (RED_BLOCK_TIMESTAMP_OFFSET_MAX : Nat)
  · have : ¬ guint32_sub ts item.timestamp ≤ 16383 := fun h => (hoff.mpr h).1 h1
    simp [h1, this]
  · by_cases h2 : gint32_of_guint32 (guint32_sub ts item.timestamp) < 0
    · have : ¬ guint32_sub ts item.timestamp ≤ 16383 := fun h => (hoff.mpr h).2 h2
      simp [h1, h2, this]
    · have h3 : guint32_sub ts item.timestamp ≤ 16383 := hoff.mp ⟨h1, h2⟩
      by_cases h4 : item.payload.length ≤ 1023
      · have h4' : ¬ item.payload.length > 1023 := by omega
        simp only [if_neg h1, if_neg h2, if_neg h4', h3, h4, and_self, if_true]
        by_cases h5 : s.rtp_history.length ≤ d
        · simp [h5]
        · simp [h5]
      · have h4' : item.payload.length > 1023 := by omega
        simp [h1, h2, h4', h4]

theorem get_redundant_block_selected (s : GstRtpRedEnc) (ts d : Nat) (R : RTPHistItem)
    (h : _red_history_get_redundant_block s ts d = some (some R)) :
    d ≠ 0 ∧ s.rtp_history.getLast? = some R ∧ guint32_sub ts R.timestamp ≤ 16383 ∧
      R.payload.length ≤ 1023 ∧ s.rtp_history.length ≤ d := by
  have hd : d ≠ 0 := by
    intro h0
    simp [_red_history_get_redundant_block, h0] at h
  cases hl : s.rtp_history.getLast? with
  | none =>
    have : s.rtp_history = [] := by simpa using hl
    simp [_red_history_get_redundant_block, this] at h
  | some item =>
    rw [get_redundant_block_of_last s ts d item hd hl] at h
    split at h
    · rename_i hc
      split at h
      · rename_i hlen
        have : item = R := by simpa using h
        subst this
        exact ⟨hd, rfl, hc.1, hc.2, hlen⟩
      · simp at h
    · simp at h

/-! ## The chain function, case by case -/

theorem prepend_zero (s : GstRtpRedEnc) (rtp : GstRTPBuffer) (p : Option (List Nat)) :
    _red_history_prepend s rtp p 0 = some s := by
  simp [_red_history_prepend]

theorem prepend_some (s : GstRtpRedEnc) (rtp : GstRTPBuffer) (payload : List Nat) (m : Nat)
    (hm : m ≠ 0) :
    _red_history_prepend s rtp (some payload) m =
      some { s with
        rtp_history := rtp_hist_item_new rtp payload ::
          (if s.rtp_history.length ≥ m then s.rtp_history.dropLast else s.rtp_history) } := by
  unfold _red_history_prepend
  rw [if_neg hm]
  by_cases hlen : s.rtp_history.length ≥ m
  · simp only [hlen, if_true]
    cases hl : s.rtp_history.getLast? with
    | none =>
      have hnil : s.rtp_history = [] := by simpa using hl
      rw [hnil] at hlen
      simp at hlen
      omega
    | some data => rfl
  · simp only [hlen, if_false]

theorem prepend_after_trim (hist : List RTPHistItem) (d : Nat) :
    (if (hist.take d).length ≥ d then (hist.take d).dropLast else hist.take d) =
      hist.take (d - 1) := by
  by_cases h : hist.length ≥ d
  · have hl : (hist.take d).length = d := by simp [List.length_take]; omega
    rw [if_pos (by omega), List.dropLast_eq_take, hl, List.take_take]
    congr 1
    omega
  · have hl : (hist.take d).length = hist.length := by simp [List.length_take]; omega
    rw [if_neg (by omega), List.take_of_length_le (by omega), List.take_of_length_le (by omega)]

theorem pad_push_state (s : GstRtpRedEnc) (b : GstBuffer) (r : Bool) :
    (_pad_push s b r).1 = { s with send_caps := false, is_current_caps_red := r } := by
  unfold _pad_push
  split
  · rfl
  · rename_i h
    have h1 : s.send_caps = false := by
      cases hs : s.send_caps
      · rfl
      · exact absurd (Or.inl hs) h
    have h2 : s.is_current_caps_red = r := by
      by_contra hne
      exact h (Or.inr (fun e => hne e.symm))
    cases s
    simp_all

theorem pad_push_out (s : GstRtpRedEnc) (b : GstBuffer) (r : Bool) :
    (_pad_push s b r).2 =
      (if s.send_caps = true ∨ r ≠ s.is_current_caps_red then
        [Downstream.event
          (if r = true then _create_caps_event s.sinkpad_caps s.pt
            else GstEvent.caps s.sinkpad_caps)]
      else []) ++ [Downstream.buffer b r] := by
  unfold _pad_push
  split <;> rfl

theorem trim_fields (s : GstRtpRedEnc) (m : Nat) :
    _red_history_trim s m = { s with rtp_history := s.rtp_history.take m } := by
  have h := trim_history s m
  unfold _red_history_trim at h ⊢
  simp only at h
  rw [h]

theorem get_redundant_block_total (s : GstRtpRedEnc) (ts d : Nat)
    (hlen : s.rtp_history.length ≤ d) :
    ∃ blk, _red_history_get_redundant_block s ts d = some blk := by
  by_cases hd : d = 0
  · exact ⟨none, by simp [_red_history_get_redundant_block, hd]⟩
  · cases hl : s.rtp_history.getLast? with
    | none =>
      have hnil : s.rtp_history = [] := by simpa using hl
      exact ⟨none, by simp [_red_history_get_redundant_block, hnil]⟩
    | some item =>
      rw [get_redundant_block_of_last s ts d item hd hl]
      simp only [hlen, if_true]
      split
      · exact ⟨_, rfl⟩
      · exact ⟨_, rfl⟩

theorem chain_passthrough (s : GstRtpRedEnc) (b : GstBuffer) (hd : s.distance = 0)
    (ha : s.allow_no_red_blocks = false) :
    gst_rtp_red_enc_chain s b = some (_pad_push { s with rtp_history := [] } b false) := by
  unfold gst_rtp_red_enc_chain
  simp [hd, ha, trim_fields]

theorem chain_unmapped (s : GstRtpRedEnc) (b : GstBuffer)
    (hcfg : ¬ (s.distance = 0 ∧ s.allow_no_red_blocks = false))
    (hmap : gst_rtp_buffer_map b = none) :
    gst_rtp_red_enc_chain s b =
      some (_pad_push { s with rtp_history := s.rtp_history.take s.distance } b
        s.is_current_caps_red) := by
  unfold gst_rtp_red_enc_chain
  have : ¬ (s.distance = 0 ∧ (!s.allow_no_red_blocks) = true) := by simpa using hcfg
  simp only [this, if_false, hmap, trim_fields]

theorem chain_mapped (s : GstRtpRedEnc) (b : GstBuffer) (rtp : GstRTPBuffer)
    (hcfg : ¬ (s.distance = 0 ∧ s.allow_no_red_blocks = false))
    (hmap : gst_rtp_buffer_map b = some rtp) :
    ∃ blk, _red_history_get_redundant_block (_red_history_trim s s.distance)
        (gst_rtp_buffer_get_timestamp rtp) s.distance = some blk ∧
      gst_rtp_red_enc_chain s b =
        if blk = none ∧ s.allow_no_red_blocks = false then
          some (_pad_push
            { s with
              rtp_history := rtp_hist_item_new rtp (gst_rtp_buffer_get_payload_buffer rtp) ::
                s.rtp_history.take (s.distance - 1) } b false)
        else
          some (_pad_push
            { s with
              rtp_history :=
                if s.distance = 0 then []
                else rtp_hist_item_new rtp (gst_rtp_buffer_get_payload_buffer rtp) ::
                  s.rtp_history.take (s.distance - 1),
              num_sent := guint_incr s.num_sent }
            (_create_red_packet (_red_history_trim s s.distance) rtp blk
              (gst_rtp_buffer_get_payload_buffer rtp)) true) := by
  have hlen : (_red_history_trim s s.distance).rtp_history.length ≤ s.distance := by
    rw [trim_history]; simp [List.length_take]
  obtain ⟨blk, hblk⟩ := get_redundant_block_total (_red_history_trim s s.distance)
    (gst_rtp_buffer_get_timestamp rtp) s.distance hlen
  refine ⟨blk, hblk, ?_⟩
  have hcfg' : ¬ (s.distance = 0 ∧ (!s.allow_no_red_blocks) = true) := by simpa using hcfg
  unfold gst_rtp_red_enc_chain
  simp only [hcfg', if_false, hmap, hblk]
  by_cases hc : blk = none ∧ s.allow_no_red_blocks = false
  · have hd : s.distance ≠ 0 := fun h0 => hcfg ⟨h0, hc.2⟩
    have hc' : blk = none ∧ (!s.allow_no_red_blocks) = true := by simpa using hc
    rw [if_pos hc', if_pos hc]
    unfold _push_nonred_packet
    simp only [Nat.pos_of_ne_zero hd, if_true]
    rw [prepend_some _ _ _ _ hd]
    simp only [trim_fields]
    rw [prepend_after_trim _ _]
  · have hc' : ¬ (blk = none ∧ (!s.allow_no_red_blocks) = true) := by simpa using hc
    rw [if_neg hc', if_neg hc]
    unfold _push_red_packet
    by_cases hd : s.distance = 0
    · simp only [hd, prepend_zero, if_true, trim_fields, List.take_zero]
    · simp only [prepend_some _ _ _ _ hd, trim_fields, if_neg hd, prepend_after_trim]

theorem chain_total (s : GstRtpRedEnc) (b : GstBuffer) :
    ∃ s' out, gst_rtp_red_enc_chain s b = some (s', out) := by
  by_cases hcfg : s.distance = 0 ∧ s.allow_no_red_blocks = false
  · exact ⟨_, _, chain_passthrough s b hcfg.1 hcfg.2⟩
  · cases hmap : gst_rtp_buffer_map b with
    | none => exact ⟨_, _, chain_unmapped s b hcfg hmap⟩
    | some rtp =>
      obtain ⟨blk, _, h⟩ := chain_mapped s b rtp hcfg hmap
      rw [h]
      split
      · exact ⟨_, _, rfl⟩
      · exact ⟨_, _, rfl⟩

/-! ## Items of reachable histories -/

theorem data_packets_pad_push (s : GstRtpRedEnc) (b : GstBuffer) (r : Bool) :
    data_packets (_pad_push s b r).2 = [b] := by
  rw [pad_push_out]
  split <;> rfl

theorem create_red_packet_with_block (s : GstRtpRedEnc) (R : RTPHistItem) (rtp : GstRTPBuffer)
    (main_block : List Nat) :
    ∃ pkt, (_create_red_packet s rtp (some R) main_block).data = GstBufferData.rtp pkt ∧
      pkt.payload = [128 + R.pt % 128,
         guint32_sub (gst_rtp_buffer_get_timestamp rtp) R.timestamp / 64 % 256,
         guint32_sub (gst_rtp_buffer_get_timestamp rtp) R.timestamp % 64 * 4 +
           R.payload.length / 256 % 4,
         R.payload.length % 256, gst_rtp_buffer_get_payload_type rtp] ++ R.payload ++
           main_block := by
  obtain ⟨pkt, hdata, hpay⟩ := alloc_with_block s R rtp
  refine ⟨{ pkt with payload := (pkt.payload ++ R.payload) ++ main_block }, ?_, ?_⟩
  · simp only [_create_red_packet, gst_buffer_append, hdata]
  · simp only [hpay]

theorem chain_effect_of_eq (s s' : GstRtpRedEnc) (b : GstBuffer) (out : List Downstream)
    (h : gst_rtp_red_enc_chain s b = some (s', out)) :
    s'.distance = s.distance ∧ s'.allow_no_red_blocks = s.allow_no_red_blocks ∧
      s'.pt = s.pt ∧ s'.sinkpad_caps = s.sinkpad_caps ∧ s'.send_caps = false ∧
      s'.rtp_history =
        if s.distance = 0 then []
        else
          match hist_item_of_buffer b with
          | some item => item :: s.rtp_history.take (s.distance - 1)
          | none => s.rtp_history.take s.distance := by
  have hs' : s' = (s', out).1 := rfl
  by_cases hcfg : s.distance = 0 ∧ s.allow_no_red_blocks = false
  · rw [chain_passthrough s b hcfg.1 hcfg.2] at h
    injection h with h
    rw [← h, pad_push_state] at hs'
    rw [hs']
    simp [hcfg.1]
  · cases hmap : gst_rtp_buffer_map b with
    | none =>
      rw [chain_unmapped s b hcfg hmap] at h
      injection h with h
      rw [← h, pad_push_state] at hs'
      rw [hs']
      simp only [hist_item_of_buffer, hmap, true_and]
      split
      · rename_i h0
        simp [h0]
      · rfl
    | some rtp =>
      obtain ⟨blk, _, hch⟩ := chain_mapped s b rtp hcfg hmap
      rw [hch] at h
      by_cases hc : blk = none ∧ s.allow_no_red_blocks = false
      · rw [if_pos hc] at h
        injection h with h
        rw [← h, pad_push_state] at hs'
        rw [hs']
        have hd : s.distance ≠ 0 := fun h0 => hcfg ⟨h0, hc.2⟩
        simp only [hist_item_of_buffer, hmap, true_and, if_neg hd]
      · rw [if_neg hc] at h
        injection h with h
        rw [← h, pad_push_state] at hs'
        rw [hs']
        simp only [hist_item_of_buffer, hmap, true_and]

theorem chain_effect (s : GstRtpRedEnc) (b : GstBuffer) :
    ∃ s' out, gst_rtp_red_enc_chain s b = some (s', out) ∧
      s'.distance = s.distance ∧ s'.allow_no_red_blocks = s.allow_no_red_blocks ∧
      s'.pt = s.pt ∧ s'.sinkpad_caps = s.sinkpad_caps ∧ s'.send_caps = false ∧
      s'.rtp_history =
        if s.distance = 0 then []
        else
          match hist_item_of_buffer b with
          | some item => item :: s.rtp_history.take (s.distance - 1)
          | none => s.rtp_history.take s.distance := by
  obtain ⟨s', out, h⟩ := chain_total s b
  exact ⟨s', out, h, chain_effect_of_eq s s' b out h⟩

theorem run_cons_some (s s1 s2 : GstRtpRedEnc) (i : Input) (rest : List Input)
    (o1 o2 : List Downstream) (h1 : step s i = some (s1, o1))
    (h2 : run s1 rest = some (s2, o2)) : run s (i :: rest) = some (s2, o1 ++ o2) := by
  simp [run, h1, h2]

theorem take_append_take (n : Nat) (A Y : List RTPHistItem) :
    (A ++ Y.take n).take n = (A ++ Y).take n := by
  rw [List.take_append_eq_append_take, List.take_append_eq_append_take, List.take_take]
  congr 2
  omega

theorem run_chain_history (N : Nat) (hN : N ≠ 0) : ∀ (pre : List GstBuffer) (s : GstRtpRedEnc),
    s.distance = N → s.rtp_history.length ≤ N →
    ∃ s' out, run s (pre.map Input.chain) = some (s', out) ∧ s'.distance = N ∧
      s'.allow_no_red_blocks = s.allow_no_red_blocks ∧
      s'.rtp_history = ((pre.filterMap hist_item_of_buffer).reverse ++ s.rtp_history).take N := by
  intro pre
  induction pre with
  | nil =>
    intro s hd hlen
    exact ⟨s, [], rfl, hd, rfl, by simp [List.take_of_length_le hlen]⟩
  | cons b rest ih =>
    intro s hd hlen
    obtain ⟨s1, o1, hch, h1d, h1a, _, _, _, h1h⟩ := chain_effect s b
    rw [hd, if_neg hN] at h1h
    have h1len : s1.rtp_history.length ≤ N := by
      rw [h1h]
      split
      · simp only [List.length_cons, List.length_take]; omega
      · simp only [List.length_take]; omega
    obtain ⟨s2, o2, hrun, h2d, h2a, h2h⟩ := ih s1 (h1d.trans hd) h1len
    refine ⟨s2, o1 ++ o2, run_cons_some s s1 s2 _ _ o1 o2 hch hrun, h2d, h2a.trans h1a, ?_⟩
    rw [h2h, h1h]
    cases hit : hist_item_of_buffer b with
    | none =>
      simp only [List.filterMap_cons, hit]
      exact take_append_take N _ _
    | some item =>
      simp only [List.filterMap_cons, hit, List.reverse_cons, List.append_assoc,
        List.singleton_append]
      have hx : item :: List.take (N - 1) s.rtp_history = (item :: s.rtp_history).take N := by
        cases N with
        | zero => exact absurd rfl hN
        | succ n => simp
      rw [hx]
      exact take_append_take N _ _

theorem filterMap_getElem?_of_all_some {α β : Type} (f : α → Option β) :
    ∀ (l : List α), (∀ a ∈ l, f a ≠ none) →
      (l.filterMap f).length = l.length ∧
        ∀ i : Nat, (l.filterMap f)[i]? = (l[i]?).bind f := by
  intro l
  induction l with
  | nil => intro _; simp
  | cons a rest ih =>
    intro h
    have ha : f a ≠ none := h a (List.mem_cons_self _ _)
    obtain ⟨hl, hi⟩ := ih (fun x hx => h x (List.mem_cons_of_mem _ hx))
    cases hfa : f a with
    | none => exact absurd hfa ha
    | some v =>
      simp only [List.filterMap_cons, hfa, List.length_cons, hl, true_and]
      intro i
      cases i with
      | zero => simp [hfa]
      | succ j => simpa using hi j

theorem getLast?_take_reverse {α : Type} (l : List α) (n : Nat) (hn : 1 ≤ n)
    (hlen : n ≤ l.length) : (l.reverse.take n).getLast? = l[l.length - n]? := by
  rw [List.getLast?_take, if_neg (by omega)]
  have h1 : n - 1 < l.reverse.length := by simp only [List.length_reverse]; omega
  rw [List.getElem?_eq_getElem h1]
  simp only [Option.or_some, List.getElem_reverse]
  rw [List.getElem?_eq_getElem (by omega)]
  congr 2
  omega

theorem filterMap_rtp_frames (pre : List GstBuffer) :
    (rtp_frames pre).filterMap hist_item_of_buffer = pre.filterMap hist_item_of_buffer := by
  induction pre with
  | nil => rfl
  | cons b rest ih =>
    cases hmap : gst_rtp_buffer_map b with
    | none =>
      have hf : rtp_frames (b :: rest) = rtp_frames rest := by
        simp [rtp_frames, List.filter_cons, hmap]
      rw [hf, ih]
      simp [List.filterMap_cons, hist_item_of_buffer, hmap]
    | some rtp =>
      have hf : rtp_frames (b :: rest) = b :: rtp_frames rest := by
        simp [rtp_frames, List.filter_cons, hmap]
      rw [hf]
      simp only [List.filterMap_cons, hist_item_of_buffer, hmap]
      simp only [hist_item_of_buffer] at ih
      rw [ih]

theorem rtp_frames_of_all_mapped (pre : List GstBuffer)
    (h : ∀ b ∈ pre, gst_rtp_buffer_map b ≠ none) : rtp_frames pre = pre := by
  unfold rtp_frames
  rw [List.filter_eq_self]
  intro b hb
  cases hmap : gst_rtp_buffer_map b with
  | none => exact absurd hmap (h b hb)
  | some rtp => rfl

/-- C2 (as the code has it): with the distance held at `N ≥ 1` and an empty
history to start with, when a frame with timestamp `ts` is processed after
earlier buffers of which at least `N` map as RTP packets, the redundant block
selected is, whenever one is selected, the item of the `N`-th most recent
earlier frame that maps as an RTP packet: its payload, payload type and
timestamp, and no other; it is selected as soon as the offset and length checks
pass. A buffer that does not map as an RTP packet is not counted. When every
earlier buffer maps as an RTP packet, that frame is frame `k - N`. -/
theorem distance_selects_Nth_rtp_frame_ago (N : Nat) (hN : 1 ≤ N) (s0 : GstRtpRedEnc)
    (hd : s0.distance = N) (hh : s0.rtp_history = []) (pre : List GstBuffer)
    (hlen : N ≤ (rtp_frames pre).length) (ts : Nat) :
    ∃ s out b rtp, run s0 (pre.map Input.chain) = some (s, out) ∧ s.distance = N ∧
      (rtp_frames pre)[(rtp_frames pre).length - N]? = some b ∧
      gst_rtp_buffer_map b = some rtp ∧
      (∀ R, _red_history_get_redundant_block (_red_history_trim s s.distance) ts s.distance =
          some (some R) →
        R.payload = rtp.pkt.payload ∧ R.pt = gst_rtp_buffer_get_payload_type rtp ∧
          R.timestamp = gst_rtp_buffer_get_timestamp rtp) ∧
      (guint32_sub ts (gst_rtp_buffer_get_timestamp rtp) ≤ 16383 →
        rtp.pkt.payload.length ≤ 1023 →
        _red_history_get_redundant_block (_red_history_trim s s.distance) ts s.distance =
          some (some (rtp_hist_item_new rtp rtp.pkt.payload))) ∧
      ((∀ b' ∈ pre, gst_rtp_buffer_map b' ≠ none) → pre[pre.length - N]? = some b) := by
  have hN0 : N ≠ 0 := by omega
  obtain ⟨s, out, hrun, hsd, _, hsh⟩ :=
    run_chain_history N hN0 pre s0 hd (by rw [hh]; exact Nat.zero_le _)
  have hall : ∀ b ∈ rtp_frames pre, hist_item_of_buffer b ≠ none := by
    intro b hb
    have hb' : (gst_rtp_buffer_map b).isSome = true := by
      unfold rtp_frames at hb
      exact (List.mem_filter.mp hb).2
    unfold hist_item_of_buffer
    split
    · simp
    · rename_i hnone
      rw [hnone] at hb'
      cases hb'
  obtain ⟨hfl, hfi⟩ := filterMap_getElem?_of_all_some hist_item_of_buffer (rtp_frames pre) hall
  rw [filterMap_rtp_frames] at hfl hfi
  have hidx : (rtp_frames pre).length - N < (rtp_frames pre).length := by omega
  have hb : (rtp_frames pre)[(rtp_frames pre).length - N]? =
      some ((rtp_frames pre)[(rtp_frames pre).length - N]) := List.getElem?_eq_getElem hidx
  have hbmem : (rtp_frames pre)[(rtp_frames pre).length - N] ∈ rtp_frames pre :=
    List.getElem_mem hidx
  cases hmap : gst_rtp_buffer_map ((rtp_frames pre)[(rtp_frames pre).length - N]) with
  | none =>
    have := hall _ hbmem
    simp [hist_item_of_buffer, hmap] at this
  | some rtp =>
    have hlast : (_red_history_trim s s.distance).rtp_history.getLast? =
        some (rtp_hist_item_new rtp rtp.pkt.payload) := by
      rw [trim_history, hsh, hh, List.append_nil, hsd, List.take_take, Nat.min_self,
        getLast?_take_reverse _ N hN (by omega), hfl, hfi, hb]
      simp [hist_item_of_buffer, hmap, gst_rtp_buffer_get_payload_buffer]
    have hlen' : (_red_history_trim s s.distance).rtp_history.length ≤ s.distance := by
      rw [trim_history]; simp [List.length_take]
    refine ⟨s, out, _, rtp, hrun, hsd, hb, hmap, ?_, ?_, ?_⟩
    · intro R hR
      obtain ⟨_, hl, _⟩ := get_redundant_block_selected _ _ _ _ hR
      rw [hlast] at hl
      injection hl with hl
      subst hl
      exact ⟨rfl, rfl, rfl⟩
    · intro hoff hpl
      rw [get_redundant_block_of_last _ ts s.distance _ (by omega) hlast]
      rw [if_pos ⟨hoff, hpl⟩, if_pos hlen']
    · intro hmapped
      have hfr := rtp_frames_of_all_mapped pre hmapped
      rw [← hb, hfr]

/-- Witness of C2: distance 2 on a new element, after the two frames of the
scenario and a buffer that does not map as an RTP packet. -/
theorem distance_selects_Nth_rtp_frame_ago_witness :
    ∃ s out b rtp,
      run (gst_rtp_red_enc_set_property (gst_rtp_red_enc_init (instance_zeroed scenario_caps))
        (PropertySet.PROP_DISTANCE 2)) ([frame_A, frame_B, raw_frame].map Input.chain) =
          some (s, out) ∧
      s.distance = 2 ∧
      (rtp_frames [frame_A, frame_B, raw_frame])[
          (rtp_frames [frame_A, frame_B, raw_frame]).length - 2]? = some b ∧
      gst_rtp_buffer_map b = some rtp ∧
      (∀ R, _red_history_get_redundant_block (_red_history_trim s s.distance) 220 s.distance =
          some (some R) →
        R.payload = rtp.pkt.payload ∧ R.pt = gst_rtp_buffer_get_payload_type rtp ∧
          R.timestamp = gst_rtp_buffer_get_timestamp rtp) ∧
      (guint32_sub 220 (gst_rtp_buffer_get_timestamp rtp) ≤ 16383 →
        rtp.pkt.payload.length ≤ 1023 →
        _red_history_get_redundant_block (_red_history_trim s s.distance) 220 s.distance =
          some (some (rtp_hist_item_new rtp rtp.pkt.payload))) ∧
      ((∀ b' ∈ [frame_A, frame_B, raw_frame], gst_rtp_buffer_map b' ≠ none) →
        [frame_A, frame_B, raw_frame][[frame_A, frame_B, raw_frame].length - 2]? = some b) :=
  distance_selects_Nth_rtp_frame_ago 2 (by decide)
    (gst_rtp_red_enc_set_property (gst_rtp_red_enc_init (instance_zeroed scenario_caps))
      (PropertySet.PROP_DISTANCE 2))
    rfl rfl [frame_A, frame_B, raw_frame] (by decide) 220

/-- C2, counterexample: distance 2 on a new element; the first three frames are
frame A, frame B and a buffer that does not map as an RTP packet, which is
forwarded without entering the history. For frame 4, at timestamp 220, with the
offset and length checks passing, the block selected is the item of frame A,
which is frame 1, while frame `k - N` is frame 2, frame B, an RTP packet. -/
theorem unmapped_frame_is_not_counted :
    (run (gst_rtp_red_enc_set_property (gst_rtp_red_enc_init (instance_zeroed scenario_caps))
        (PropertySet.PROP_DISTANCE 2)) ([frame_A, frame_B, raw_frame].map Input.chain)).map
        (fun r => _red_history_get_redundant_block (_red_history_trim r.1 r.1.distance) 220
          r.1.distance) = some (some (some item_A)) ∧
    [frame_A, frame_B, raw_frame][4 - 1 - 2]? = some frame_B ∧
    hist_item_of_buffer frame_B = some item_B ∧ item_A ≠ item_B ∧
    guint32_sub 220 item_B.timestamp ≤ 16383 ∧ item_B.payload.length ≤ 1023 := by
  decide

/-! ## The candidate is the tail of the queue -/

theorem prepend_all_sorted : ∀ (frames : List (GstRTPBuffer × Nat)) (s : GstRtpRedEnc),
    s.rtp_history.Pairwise (fun a b => a.timestamp > b.timestamp) →
    (∀ x ∈ s.rtp_history, ∀ f ∈ frames, x.timestamp < gst_rtp_buffer_get_timestamp f.1) →
    (frames.map (fun f => gst_rtp_buffer_get_timestamp f.1)).Pairwise (fun a b => a < b) →
    ∃ s', prepend_all s frames = some s' ∧
      s'.rtp_history.Pairwise (fun a b => a.timestamp > b.timestamp) := by
  intro frames
  induction frames with
  | nil =>
    intro s hs _ _
    exact ⟨s, rfl, hs⟩
  | cons f rest ih =>
    intro s hs hlt hinc
    obtain ⟨rtp, bound⟩ := f
    simp only [List.map_cons, List.pairwise_cons, List.mem_map, forall_exists_index, and_imp,
      forall_apply_eq_imp_iff₂] at hinc
    obtain ⟨hfirst, hrest⟩ := hinc
    by_cases hb : bound = 0
    · subst hb
      obtain ⟨s', h1, h2⟩ := ih s hs
        (fun x hx f hf => hlt x hx f (List.mem_cons_of_mem _ hf)) hrest
      exact ⟨s', by simp only [prepend_all, prepend_zero, h1], h2⟩
    · have hsub : (if s.rtp_history.length ≥ bound then s.rtp_history.dropLast
          else s.rtp_history).Sublist s.rtp_history := by
        split
        · exact List.dropLast_sublist _
        · exact List.Sublist.refl _
      obtain ⟨s', h1, h2⟩ := ih
        { s with
          rtp_history := rtp_hist_item_new rtp (gst_rtp_buffer_get_payload_buffer rtp) ::
            (if s.rtp_history.length ≥ bound then s.rtp_history.dropLast else s.rtp_history) }
        (by
          simp only [List.pairwise_cons]
          refine ⟨?_, hs.sublist hsub⟩
          intro x hx
          exact hlt x (hsub.subset hx) (rtp, bound) (List.mem_cons_self _ _))
        (by
          intro x hx f hf
          simp only [List.mem_cons] at hx
          rcases hx with hx | hx
          · subst hx
            exact hfirst f hf
          · exact hlt x (hsub.subset hx) f (List.mem_cons_of_mem _ hf))
        hrest
      exact ⟨s', by simp only [prepend_all, prepend_some _ _ _ _ hb, h1], h2⟩

theorem last_least_of_sorted (hist : List RTPHistItem) (c : RTPHistItem)
    (hs : hist.Pairwise (fun a b => a.timestamp > b.timestamp))
    (hl : hist.getLast? = some c) :
    (∀ x ∈ hist, c.timestamp ≤ x.timestamp) ∧ (hist.head? = some c ↔ hist.length = 1) := by
  obtain ⟨ys, rfl⟩ := List.getLast?_eq_some_iff.mp hl
  rw [List.pairwise_append] at hs
  obtain ⟨_, _, hgt⟩ := hs
  constructor
  · intro x hx
    simp only [List.mem_append, List.mem_singleton] at hx
    rcases hx with hx | hx
    · exact Nat.le_of_lt (hgt x hx c (List.mem_singleton_self _))
    · rw [hx]
  · cases ys with
    | nil => simp
    | cons y rest =>
      have hy := hgt y (List.mem_cons_self _ _) c (List.mem_singleton_self _)
      simp only [List.cons_append, List.head?_cons, Option.some.injEq, List.length_cons,
        List.length_append, List.length_nil]
      constructor
      · intro h
        rw [h] at hy
        exact absurd hy (Nat.lt_irrefl _)
      · intro h
        omega

/-- C3 (as the code has it): for a history built by pushing frames with strictly
increasing timestamps, under any bounds, the candidate that
`_red_history_get_redundant_block` examines is the tail of the queue, which is
the oldest retained item, the one with the least timestamp: the outcome is
decided by the timestamp and payload length of that item, only that item can be
selected, and it is the head (the most recent item) only when the history holds
exactly one item. -/
theorem candidate_is_oldest_item (s0 : GstRtpRedEnc) (h0 : s0.rtp_history = [])
    (frames : List (GstRTPBuffer × Nat))
    (hinc : (frames.map (fun f => gst_rtp_buffer_get_timestamp f.1)).Pairwise
      (fun a b => a < b)) :
    ∃ s, prepend_all s0 frames = some s ∧
      (s.rtp_history ≠ [] →
        ∃ c, s.rtp_history.getLast? = some c ∧
          (∀ ts d, d ≠ 0 →
            _red_history_get_redundant_block s ts d =
              if guint32_sub ts c.timestamp ≤ 16383 ∧ c.payload.length ≤ 1023 then
                (if s.rtp_history.length ≤ d then some (some c) else none)
              else some none) ∧
          (∀ ts d R, _red_history_get_redundant_block s ts d = some (some R) → R = c) ∧
          (∀ x ∈ s.rtp_history, c.timestamp ≤ x.timestamp) ∧
          (s.rtp_history.head? = some c ↔ s.rtp_history.length = 1)) := by
  obtain ⟨s, hs, hsorted⟩ := prepend_all_sorted frames s0 (by rw [h0]; exact List.Pairwise.nil)
    (by rw [h0]; intro x hx; simp at hx) hinc
  refine ⟨s, hs, ?_⟩
  intro hne
  cases hl : s.rtp_history.getLast? with
  | none => exact absurd (by simpa using hl) hne
  | some c =>
    obtain ⟨hleast, hhead⟩ := last_least_of_sorted s.rtp_history c hsorted hl
    refine ⟨c, rfl, ?_, ?_, hleast, hhead⟩
    · intro ts d hd
      exact get_redundant_block_of_last s ts d c hd hl
    · intro ts d R hR
      obtain ⟨_, hl', _⟩ := get_redundant_block_selected s ts d R hR
      rw [hl] at hl'
      injection hl' with hl'
      exact hl'.symm

/-- Witness of C3: the two frames of the scenario pushed with bound 2. -/
theorem candidate_is_oldest_item_witness :
    ∃ s, prepend_all (instance_zeroed scenario_caps)
        [(⟨frame_A, packet_A⟩, 2), (⟨frame_B, packet_B⟩, 2)] = some s ∧
      (s.rtp_history ≠ [] →
        ∃ c, s.rtp_history.getLast? = some c ∧
          (∀ ts d, d ≠ 0 →
            _red_history_get_redundant_block s ts d =
              if guint32_sub ts c.timestamp ≤ 16383 ∧ c.payload.length ≤ 1023 then
                (if s.rtp_history.length ≤ d then some (some c) else none)
              else some none) ∧
          (∀ ts d R, _red_history_get_redundant_block s ts d = some (some R) → R = c) ∧
          (∀ x ∈ s.rtp_history, c.timestamp ≤ x.timestamp) ∧
          (s.rtp_history.head? = some c ↔ s.rtp_history.length = 1)) :=
  candidate_is_oldest_item (instance_zeroed scenario_caps) rfl
    [(⟨frame_A, packet_A⟩, 2), (⟨frame_B, packet_B⟩, 2)] (by decide)

/-- C3, counterexample: after pushing frame A (timestamp 100) and then frame B
(timestamp 160) with bound 2 the history is B, A; the candidate examined and
selected for a frame at timestamp 220 is A, which is neither the head of the
history nor the item with the greatest timestamp. -/
theorem candidate_is_not_most_recent :
    prepend_all (instance_zeroed scenario_caps)
        [(⟨frame_A, packet_A⟩, 2), (⟨frame_B, packet_B⟩, 2)] =
      some { instance_zeroed scenario_caps with rtp_history := [item_B, item_A] } ∧
    _red_history_get_redundant_block
        { instance_zeroed scenario_caps with rtp_history := [item_B, item_A] } 220 2 =
      some (some item_A) ∧
    [item_B, item_A].head? = some item_B ∧ item_A ≠ item_B ∧
    item_A.timestamp < item_B.timestamp := by
  decide

/-! ## Timestamp offset and length checks -/

theorem guint32_sub_int (a b : Nat) (ha : a < 4294967296) (hb : b < 4294967296) :
    (guint32_sub a b : Int) = ((a : Int) - (b : Int)) % 4294967296 := by
  unfold guint32_sub
  omega

/-- C4 (as the code has it): with distance above 0 and a candidate `c` of at
most 1023 bytes, the candidate is selected exactly when the 32-bit wrapping
difference `(T_now - T_c) mod 2 ^ 32` is at most 16383, otherwise no candidate
is selected; when it is selected the 14-bit offset written into the redundant
header is that wrapped difference. When `T_c ≤ T_now` the wrapped difference is
the integer difference `T_now - T_c`. -/
theorem offset_selection (s : GstRtpRedEnc) (c : RTPHistItem) (rtp : GstRTPBuffer) (d : Nat)
    (hd : 0 < d) (hl : s.rtp_history.getLast? = some c) (hlen : s.rtp_history.length ≤ d)
    (hc : c.timestamp < 4294967296) (hp : c.payload.length ≤ 1023) :
    (_red_history_get_redundant_block s (gst_rtp_buffer_get_timestamp rtp) d = some (some c) ↔
      ((gst_rtp_buffer_get_timestamp rtp : Int) - (c.timestamp : Int)) % 4294967296 ≤ 16383) ∧
    (¬ ((gst_rtp_buffer_get_timestamp rtp : Int) - (c.timestamp : Int)) % 4294967296 ≤ 16383 →
      _red_history_get_redundant_block s (gst_rtp_buffer_get_timestamp rtp) d = some none) ∧
    (_red_history_get_redundant_block s (gst_rtp_buffer_get_timestamp rtp) d = some (some c) →
      ∃ pkt, (_create_red_packet s rtp (some c) (gst_rtp_buffer_get_payload_buffer rtp)).data =
          GstBufferData.rtp pkt ∧
        (((pkt.payload.getD 1 0 * 65536 + pkt.payload.getD 2 0 * 256 + pkt.payload.getD 3 0) /
            1024 : Nat) : Int) =
          ((gst_rtp_buffer_get_timestamp rtp : Int) - (c.timestamp : Int)) % 4294967296) ∧
    (c.timestamp ≤ gst_rtp_buffer_get_timestamp rtp →
      ((gst_rtp_buffer_get_timestamp rtp : Int) - (c.timestamp : Int)) % 4294967296 =
        (gst_rtp_buffer_get_timestamp rtp : Int) - (c.timestamp : Int)) := by
  have hnow : gst_rtp_buffer_get_timestamp rtp < 4294967296 := by
    unfold gst_rtp_buffer_get_timestamp; omega
  have hint := guint32_sub_int (gst_rtp_buffer_get_timestamp rtp) c.timestamp hnow hc
  have hsel := get_redundant_block_of_last s (gst_rtp_buffer_get_timestamp rtp) d c (by omega) hl
  rw [if_pos hlen] at hsel
  refine ⟨?_, ?_, ?_, ?_⟩
  · rw [hsel, ← hint]
    constructor
    · intro h
      split at h
      · rename_i hc'
        have := hc'.1
        omega
      · simp at h
    · intro h
      rw [if_pos ⟨by omega, hp⟩]
  · intro h
    rw [hsel, if_neg]
    intro hc'
    have := hc'.1
    omega
  · intro h
    rw [hsel] at h
    have hoff : guint32_sub (gst_rtp_buffer_get_timestamp rtp) c.timestamp ≤ 16383 := by
      by_contra hno
      rw [if_neg (fun hc' => hno hc'.1)] at h
      simp at h
    obtain ⟨pkt, hdata, hpay⟩ := create_red_packet_with_block s c rtp
      (gst_rtp_buffer_get_payload_buffer rtp)
    refine ⟨pkt, hdata, ?_⟩
    rw [← hint, hpay]
    simp only [List.cons_append, List.getD_cons_succ, List.getD_cons_zero]
    omega
  · intro hle
    omega

/-- Witness of C4: the second frame of the scenario against the item of the first. -/
theorem offset_selection_witness :
    (_red_history_get_redundant_block scenario_after_A
        (gst_rtp_buffer_get_timestamp ⟨frame_B, packet_B⟩) 1 = some (some item_A) ↔
      ((gst_rtp_buffer_get_timestamp ⟨frame_B, packet_B⟩ : Int) - (item_A.timestamp : Int)) %
        4294967296 ≤ 16383) ∧
    (¬ ((gst_rtp_buffer_get_timestamp ⟨frame_B, packet_B⟩ : Int) - (item_A.timestamp : Int)) %
        4294967296 ≤ 16383 →
      _red_history_get_redundant_block scenario_after_A
        (gst_rtp_buffer_get_timestamp ⟨frame_B, packet_B⟩) 1 = some none) ∧
    (_red_history_get_redundant_block scenario_after_A
        (gst_rtp_buffer_get_timestamp ⟨frame_B, packet_B⟩) 1 = some (some item_A) →
      ∃ pkt, (_create_red_packet scenario_after_A ⟨frame_B, packet_B⟩ (some item_A)
          (gst_rtp_buffer_get_payload_buffer ⟨frame_B, packet_B⟩)).data =
          GstBufferData.rtp pkt ∧
        (((pkt.payload.getD 1 0 * 65536 + pkt.payload.getD 2 0 * 256 + pkt.payload.getD 3 0) /
            1024 : Nat) : Int) =
          ((gst_rtp_buffer_get_timestamp ⟨frame_B, packet_B⟩ : Int) -
            (item_A.timestamp : Int)) % 4294967296) ∧
    (item_A.timestamp ≤ gst_rtp_buffer_get_timestamp ⟨frame_B, packet_B⟩ →
      ((gst_rtp_buffer_get_timestamp ⟨frame_B, packet_B⟩ : Int) - (item_A.timestamp : Int)) %
          4294967296 =
        (gst_rtp_buffer_get_timestamp ⟨frame_B, packet_B⟩ : Int) - (item_A.timestamp : Int)) :=
  offset_selection scenario_after_A item_A ⟨frame_B, packet_B⟩ 1 (by decide) rfl (by decide)
    (by decide) (by decide)

/-- C4, counterexample: the candidate has timestamp `2 ^ 32 - 6` and the current
frame has timestamp 4, numerically smaller; the integer difference is negative,
yet the candidate is selected and the offset written into the header is 10. -/
theorem wrapped_timestamp_is_selected :
    _red_history_get_redundant_block
        { instance_zeroed scenario_caps with
          distance := 1, rtp_history := [{ pt := 8, timestamp := 4294967290, payload := [65] }] }
        4 1 = some (some { pt := 8, timestamp := 4294967290, payload := [65] }) ∧
    ¬ (0 ≤ (4 : Int) - 4294967290 ∧ (4 : Int) - 4294967290 ≤ 16383) ∧
    (4 : Nat) < 4294967290 ∧
    ∃ pkt, (_create_red_packet (instance_zeroed scenario_caps)
        ⟨{ metadata := 2, data := GstBufferData.rtp { packet_B with timestamp := 4 } },
          { packet_B with timestamp := 4 }⟩
        (some { pt := 8, timestamp := 4294967290, payload := [65] }) [66]).data =
          GstBufferData.rtp pkt ∧
      (pkt.payload.getD 1 0 * 65536 + pkt.payload.getD 2 0 * 256 + pkt.payload.getD 3 0) / 1024 =
        10 := by
  refine ⟨by decide, by decide, by decide, _, rfl, by decide⟩

/-- C5: for a candidate whose timestamp offset is valid (between 0 and
`RED_BLOCK_TIMESTAMP_OFFSET_MAX` as a signed 32-bit value), with distance above
0 and a history within the distance, `_red_history_get_redundant_block` returns
no candidate when the payload has 1024 bytes or more and returns the candidate
when it has 1023 bytes or less. -/
theorem length_bound_enforced (s : GstRtpRedEnc) (c : RTPHistItem) (ts d : Nat) (hd : 0 < d)
    (hl : s.rtp_history.getLast? = some c) (hlen : s.rtp_history.length ≤ d)
    (hlo : 0 ≤ gint32_of_guint32 (guint32_sub ts c.timestamp))
    (hhi : gint32_of_guint32 (guint32_sub ts c.timestamp) ≤ (RED_BLOCK_TIMESTAMP_OFFSET_MAX : Nat)) :
    (RED_BLOCK_LENGTH_MAX + 1 ≤ c.payload.length →
      _red_history_get_redundant_block s ts d = some none) ∧
    (c.payload.length ≤ RED_BLOCK_LENGTH_MAX →
      _red_history_get_redundant_block s ts d = some (some c)) := by
  have hoff : guint32_sub ts c.timestamp ≤ 16383 :=
    (offset_checks_iff _ (guint32_sub_lt _ _)).mp ⟨by omega, by omega⟩
  have hsel := get_redundant_block_of_last s ts d c (by omega) hl
  rw [if_pos hlen] at hsel
  unfold RED_BLOCK_LENGTH_MAX
  constructor
  · intro h
    rw [hsel, if_neg (fun hc => by have := hc.2; omega)]
  · intro h
    rw [hsel, if_pos ⟨hoff, h⟩]

/-- Witness of C5: a candidate of 1024 bytes with a valid offset. -/
theorem length_bound_enforced_witness :
    (RED_BLOCK_LENGTH_MAX + 1 ≤
        ({ pt := 8, timestamp := 100, payload := List.replicate 1024 0 } : RTPHistItem).payload.length →
      _red_history_get_redundant_block
        { scenario_start with
          rtp_history := [{ pt := 8, timestamp := 100, payload := List.replicate 1024 0 }] }
        160 1 = some none) ∧
    (({ pt := 8, timestamp := 100, payload := List.replicate 1024 0 } : RTPHistItem).payload.length ≤
        RED_BLOCK_LENGTH_MAX →
      _red_history_get_redundant_block
        { scenario_start with
          rtp_history := [{ pt := 8, timestamp := 100, payload := List.replicate 1024 0 }] }
        160 1 = some (some { pt := 8, timestamp := 100, payload := List.replicate 1024 0 })) :=
  length_bound_enforced
    { scenario_start with
      rtp_history := [{ pt := 8, timestamp := 100, payload := List.replicate 1024 0 }] }
    { pt := 8, timestamp := 100, payload := List.replicate 1024 0 } 160 1 (by decide) rfl
    (by decide) (by decide) (by decide)

/-! ## Bound of the history -/

theorem apply_history_op_total (s : GstRtpRedEnc) (op : HistoryOp) :
    ∃ s', apply_history_op s op = some s' := by
  cases op with
  | prepend rtp p m =>
    by_cases hm : m = 0
    · exact ⟨s, by simp only [apply_history_op, hm, prepend_zero]⟩
    · exact ⟨_, prepend_some s rtp p m hm⟩
  | trim m => exact ⟨_, rfl⟩

theorem apply_history_ops_total : ∀ (ops : List HistoryOp) (s : GstRtpRedEnc),
    ∃ s', apply_history_ops s ops = some s' := by
  intro ops
  induction ops with
  | nil => intro s; exact ⟨s, rfl⟩
  | cons op rest ih =>
    intro s
    obtain ⟨s1, h1⟩ := apply_history_op_total s op
    obtain ⟨s2, h2⟩ := ih s1
    exact ⟨s2, by simp only [apply_history_ops, h1, h2]⟩

/-- C6 (as the code has it): for every sequence of history operations from any
history, the empty one included, and every next operation, the operation
succeeds; after a trim
with bound `b` the history holds at most `b` items; after a push with bound `b`
it holds at most `b` items provided it held at most `b` before, which is the
case when the push follows a trim with the same bound, as in the chain function;
and a push never leaves more items than the larger of `b` and the number held
before. -/
theorem history_bound_after_op (s0 : GstRtpRedEnc) (ops : List HistoryOp) (op : HistoryOp) :
    ∃ s s', apply_history_ops s0 ops = some s ∧ apply_history_op s op = some s' ∧
      ((∃ b, op = HistoryOp.trim b) → s'.rtp_history.length ≤ op.bound) ∧
      (s.rtp_history.length ≤ op.bound → s'.rtp_history.length ≤ op.bound) ∧
      s'.rtp_history.length ≤ max op.bound s.rtp_history.length ∧
      (∀ rtp p, ∃ s'', apply_history_op (_red_history_trim s op.bound)
          (HistoryOp.prepend rtp p op.bound) = some s'' ∧
        s''.rtp_history.length ≤ op.bound) := by
  obtain ⟨s, hs⟩ := apply_history_ops_total ops s0
  have hpre : ∀ (t : GstRtpRedEnc) (rtp : GstRTPBuffer) (p : List Nat) (m : Nat),
      ∃ t', apply_history_op t (HistoryOp.prepend rtp p m) = some t' ∧
        (t.rtp_history.length ≤ m → t'.rtp_history.length ≤ m) ∧
        t'.rtp_history.length ≤ max m t.rtp_history.length := by
    intro t rtp p m
    by_cases hm : m = 0
    · refine ⟨t, by simp only [apply_history_op, hm, prepend_zero], ?_, ?_⟩
      · intro h; omega
      · omega
    · refine ⟨_, prepend_some t rtp p m hm, ?_, ?_⟩
      · intro h
        simp only [List.length_cons]
        split
        · simp only [List.length_dropLast]; omega
        · omega
      · simp only [List.length_cons]
        split
        · simp only [List.length_dropLast]; omega
        · omega
  have htrim : ∀ (t : GstRtpRedEnc) (m : Nat), (_red_history_trim t m).rtp_history.length ≤ m := by
    intro t m
    rw [trim_history]
    simp only [List.length_take]
    omega
  have hlast : ∀ rtp p, ∃ s'', apply_history_op (_red_history_trim s op.bound)
      (HistoryOp.prepend rtp p op.bound) = some s'' ∧ s''.rtp_history.length ≤ op.bound := by
    intro rtp p
    obtain ⟨t', ht, hle, _⟩ := hpre (_red_history_trim s op.bound) rtp p op.bound
    exact ⟨t', ht, hle (htrim s op.bound)⟩
  cases op with
  | prepend rtp p m =>
    obtain ⟨s', hs', hle, hmax⟩ := hpre s rtp p m
    refine ⟨s, s', hs, hs', ?_, hle, hmax, hlast⟩
    rintro ⟨b, hb⟩
    cases hb
  | trim m =>
    refine ⟨s, _, hs, rfl, fun _ => htrim s m, fun _ => htrim s m, ?_, hlast⟩
    have := htrim s m
    simp only [HistoryOp.bound]
    omega

/-- C6, counterexample: two pushes with bound 2 followed by a push with bound 1
leave two items in the history, more than the bound 1 of the last operation;
a push with bound 0 after the two pushes leaves the two items as well. -/
theorem push_with_smaller_bound_keeps_length :
    (apply_history_ops (instance_zeroed scenario_caps)
        [HistoryOp.prepend ⟨frame_A, packet_A⟩ [65] 2,
          HistoryOp.prepend ⟨frame_B, packet_B⟩ [66] 2,
          HistoryOp.prepend ⟨frame_A, packet_A⟩ [65] 1]).map
        (fun s => s.rtp_history) = some [item_A, item_B] ∧
    ¬ ([item_A, item_B].length ≤ 1) ∧
    (apply_history_ops (instance_zeroed scenario_caps)
        [HistoryOp.prepend ⟨frame_A, packet_A⟩ [65] 2,
          HistoryOp.prepend ⟨frame_B, packet_B⟩ [66] 2,
          HistoryOp.prepend ⟨frame_A, packet_A⟩ [65] 0]).map
        (fun s => s.rtp_history) = some [item_B, item_A] ∧
    ¬ ([item_B, item_A].length ≤ 0) := by
  decide

/-! ## Passthrough and the end-to-end scenario -/

theorem data_packets_append (o1 o2 : List Downstream) :
    data_packets (o1 ++ o2) = data_packets o1 ++ data_packets o2 := by
  induction o1 with
  | nil => rfl
  | cons d rest ih =>
    cases d with
    | event e => simpa [data_packets] using ih
    | buffer b r => simpa [data_packets] using ih

theorem pad_push_buffer_mem (s : GstRtpRedEnc) (b b' : GstBuffer) (r r' : Bool)
    (h : Downstream.buffer b' r' ∈ (_pad_push s b r).2) : b' = b ∧ r' = r := by
  rw [pad_push_out] at h
  split at h <;> simp at h <;> exact h

/-- C7: with distance 0 and bare RED packets not allowed, from any state of the
element, every sequence of frames is processed without error, the buffers sent
downstream are exactly the input buffers, once each and in arrival order, all
sent as plain (not RED) packets; the sent counter is unchanged and the history
is empty afterwards (it stays empty if it was, and is emptied by the first
frame otherwise). -/
theorem passthrough_when_disabled (bufs : List GstBuffer) : ∀ (s0 : GstRtpRedEnc),
    s0.distance = 0 → s0.allow_no_red_blocks = false →
    ∃ s out, run s0 (bufs.map Input.chain) = some (s, out) ∧ data_packets out = bufs ∧
      (∀ b r, Downstream.buffer b r ∈ out → r = false) ∧
      s.num_sent = s0.num_sent ∧ s.distance = 0 ∧ s.allow_no_red_blocks = false ∧
      (s0.rtp_history = [] → s.rtp_history = []) ∧ (bufs ≠ [] → s.rtp_history = []) := by
  induction bufs with
  | nil =>
    intro s0 hd ha
    exact ⟨s0, [], rfl, rfl, by simp, rfl, hd, ha, fun h => h, fun h => absurd rfl h⟩
  | cons b rest ih =>
    intro s0 hd ha
    have hch := chain_passthrough s0 b hd ha
    have hst := pad_push_state { s0 with rtp_history := [] } b false
    generalize hp : _pad_push { s0 with rtp_history := [] } b false = p at hch hst
    obtain ⟨s1, o1⟩ := p
    simp only at hst
    have ho1 : data_packets o1 = [b] := by
      have := data_packets_pad_push { s0 with rtp_history := [] } b false
      rw [hp] at this
      exact this
    have hmem1 : ∀ b' r', Downstream.buffer b' r' ∈ o1 → r' = false := by
      intro b' r' hm
      have := pad_push_buffer_mem { s0 with rtp_history := [] } b b' false r' (by rw [hp]; exact hm)
      exact this.2
    obtain ⟨s, o2, hrun, hdata, hmem2, hsent, hsd, hsa, hnil, _⟩ :=
      ih s1 (by rw [hst]; exact hd) (by rw [hst]; exact ha)
    have h1nil : s1.rtp_history = [] := by rw [hst]
    refine ⟨s, o1 ++ o2, run_cons_some s0 s1 s _ _ o1 o2 hch hrun, ?_, ?_, ?_, hsd, hsa,
      fun _ => hnil h1nil, fun _ => hnil h1nil⟩
    · rw [data_packets_append, ho1, hdata]
      rfl
    · intro b' r' hm
      rcases List.mem_append.mp hm with hm | hm
      · exact hmem1 b' r' hm
      · exact hmem2 b' r' hm
    · rw [hsent, hst]

/-- Witness of C7: the two frames of the scenario through a new element. -/
theorem passthrough_when_disabled_witness :
    ∃ s out, run (gst_rtp_red_enc_init (instance_zeroed scenario_caps))
        ([frame_A, frame_B].map Input.chain) = some (s, out) ∧
      data_packets out = [frame_A, frame_B] ∧
      (∀ b r, Downstream.buffer b r ∈ out → r = false) ∧
      s.num_sent = (gst_rtp_red_enc_init (instance_zeroed scenario_caps)).num_sent ∧
      s.distance = 0 ∧ s.allow_no_red_blocks = false ∧
      ((gst_rtp_red_enc_init (instance_zeroed scenario_caps)).rtp_history = [] →
        s.rtp_history = []) ∧
      ([frame_A, frame_B] ≠ [] → s.rtp_history = []) :=
  passthrough_when_disabled [frame_A, frame_B]
    (gst_rtp_red_enc_init (instance_zeroed scenario_caps)) rfl rfl

theorem create_red_packet_payload_type (s : GstRtpRedEnc) (rtp : GstRTPBuffer)
    (blk : Option RTPHistItem) (main_block : List Nat) (pkt : RTPPacket)
    (h : (_create_red_packet s rtp blk main_block).data = GstBufferData.rtp pkt) :
    pkt.payload_type = s.pt := by
  cases blk with
  | none =>
    simp only [_create_red_packet, gst_buffer_append, _alloc_red_packet_and_fill_headers] at h
    injection h with h
    rw [← h]
  | some R =>
    simp only [_create_red_packet, gst_buffer_append, _alloc_red_packet_and_fill_headers] at h
    injection h with h
    rw [← h]

/-- C8: on a new element with output payload type `pt`, distance 1 and bare RED
packets not allowed, for two consecutive RTP frames F1 (payload A of at most
1023 bytes) and F2 (payload B) whose timestamps satisfy `0 ≤ t2 - t1 ≤ 16383`:
F1 is sent unmodified as a plain packet with no caps event and A is pushed to
the history; F2 gives a caps event announcing `pt` and then one RED packet whose
payload is the redundant header (marker bit, payload type of F1, offset
`t2 - t1`, length of A), the final header (payload type of F2), A and B; after
it the sent counter is 1 and the history holds the item of F2 alone. -/
theorem end_to_end_distance_one (caps : GstCaps) (pt : Nat) (b1 b2 : GstBuffer)
    (r1 r2 : GstRTPBuffer)
    (hm1 : gst_rtp_buffer_map b1 = some r1) (hm2 : gst_rtp_buffer_map b2 = some r2)
    (hA : r1.pkt.payload.length ≤ 1023)
    (hle : gst_rtp_buffer_get_timestamp r1 ≤ gst_rtp_buffer_get_timestamp r2)
    (hoff : gst_rtp_buffer_get_timestamp r2 - gst_rtp_buffer_get_timestamp r1 ≤ 16383) :
    ∃ s1 s2 red pkt,
      gst_rtp_red_enc_chain
          (gst_rtp_red_enc_set_property
            (gst_rtp_red_enc_set_property (gst_rtp_red_enc_init (instance_zeroed caps))
              (PropertySet.PROP_PT pt))
            (PropertySet.PROP_DISTANCE 1)) b1 =
        some (s1, [Downstream.buffer b1 false]) ∧
      s1.rtp_history =
        [{ pt := gst_rtp_buffer_get_payload_type r1,
           timestamp := gst_rtp_buffer_get_timestamp r1, payload := r1.pkt.payload }] ∧
      gst_rtp_red_enc_chain s1 b2 =
        some (s2, [Downstream.event (GstEvent.caps { caps with payload := some pt }),
          Downstream.buffer red true]) ∧
      red.data = GstBufferData.rtp pkt ∧
      pkt.payload =
        [128 + gst_rtp_buffer_get_payload_type r1,
          (gst_rtp_buffer_get_timestamp r2 - gst_rtp_buffer_get_timestamp r1) / 64,
          (gst_rtp_buffer_get_timestamp r2 - gst_rtp_buffer_get_timestamp r1) % 64 * 4 +
            r1.pkt.payload.length / 256,
          r1.pkt.payload.length % 256,
          gst_rtp_buffer_get_payload_type r2] ++ r1.pkt.payload ++ r2.pkt.payload ∧
      pkt.payload_type = pt ∧
      s2.num_sent = 1 ∧
      s2.rtp_history =
        [{ pt := gst_rtp_buffer_get_payload_type r2,
           timestamp := gst_rtp_buffer_get_timestamp r2, payload := r2.pkt.payload }] := by
  have hs0 : gst_rtp_red_enc_set_property
      (gst_rtp_red_enc_set_property (gst_rtp_red_enc_init (instance_zeroed caps))
        (PropertySet.PROP_PT pt)) (PropertySet.PROP_DISTANCE 1) =
      { pt := pt, num_sent := 0, distance := 1, allow_no_red_blocks := false,
        is_current_caps_red := false, send_caps := false, rtp_history := [],
        sinkpad_caps := caps } := by
    simp [gst_rtp_red_enc_set_property, gst_rtp_red_enc_init, instance_zeroed,
      DEFAULT_DISTANCE, DEFAULT_ALLOW_NO_RED_BLOCKS]
  rw [hs0]
  have ht2 : gst_rtp_buffer_get_timestamp r2 < 4294967296 := by
    unfold gst_rtp_buffer_get_timestamp; omega
  have hp1 : gst_rtp_buffer_get_payload_type r1 < 128 := by
    unfold gst_rtp_buffer_get_payload_type; omega
  have hsub := guint32_sub_of_le _ _ ht2 hle
  -- frame 1
  obtain ⟨blk1, hblk1, hch1⟩ := chain_mapped
    { pt := pt, num_sent := 0, distance := 1, allow_no_red_blocks := false,
      is_current_caps_red := false, send_caps := false, rtp_history := [],
      sinkpad_caps := caps } b1 r1 (by simp) hm1
  have hnone : blk1 = none := by
    simp [_red_history_get_redundant_block, trim_history] at hblk1
    exact hblk1.symm
  subst hnone
  simp only [true_and, if_true, List.take_nil] at hch1
  -- frame 2
  obtain ⟨blk2, hblk2, hch2⟩ := chain_mapped
    { pt := pt, num_sent := 0, distance := 1, allow_no_red_blocks := false,
      is_current_caps_red := false, send_caps := false,
      rtp_history := [rtp_hist_item_new r1 (gst_rtp_buffer_get_payload_buffer r1)],
      sinkpad_caps := caps } b2 r2 (by simp) hm2
  have hsome : blk2 = some (rtp_hist_item_new r1 (gst_rtp_buffer_get_payload_buffer r1)) := by
    rw [get_redundant_block_of_last _ _ _
      (rtp_hist_item_new r1 (gst_rtp_buffer_get_payload_buffer r1)) (by simp)
      (by simp [trim_history])] at hblk2
    rw [if_pos ⟨by
        simp only [rtp_hist_item_new, rtp_hist_item_init]
        omega, hA⟩, if_pos (by simp [trim_history])] at hblk2
    injection hblk2 with h
    exact h.symm
  subst hsome
  simp only [false_and, if_false, List.take_zero, Nat.sub_self, one_ne_zero] at hch2
  obtain ⟨pkt, hdata, hpay⟩ := create_red_packet_with_block
    (_red_history_trim
      { pt := pt, num_sent := 0, distance := 1, allow_no_red_blocks := false,
        is_current_caps_red := false, send_caps := false,
        rtp_history := [rtp_hist_item_new r1 (gst_rtp_buffer_get_payload_buffer r1)],
        sinkpad_caps := caps } 1) (rtp_hist_item_new r1 (gst_rtp_buffer_get_payload_buffer r1)) r2
    (gst_rtp_buffer_get_payload_buffer r2)
  refine ⟨
    { pt := pt, num_sent := 0, distance := 1, allow_no_red_blocks := false,
      is_current_caps_red := false, send_caps := false,
      rtp_history := [rtp_hist_item_new r1 (gst_rtp_buffer_get_payload_buffer r1)],
      sinkpad_caps := caps },
    { pt := pt, num_sent := 1, distance := 1, allow_no_red_blocks := false,
      is_current_caps_red := true, send_caps := false,
      rtp_history := [rtp_hist_item_new r2 (gst_rtp_buffer_get_payload_buffer r2)],
      sinkpad_caps := caps }, _, pkt, ?_, ?_, ?_, hdata, ?_, ?_, ?_, ?_⟩
  · rw [hch1]
    simp [_pad_push]
  · rfl
  · rw [hch2]
    simp [_pad_push, _create_caps_event]
    rfl
  · rw [hpay]
    simp only [rtp_hist_item_new, rtp_hist_item_init, gst_rtp_buffer_get_payload_buffer, hsub]
    have h1 : gst_rtp_buffer_get_payload_type r1 % 128 = gst_rtp_buffer_get_payload_type r1 :=
      Nat.mod_eq_of_lt hp1
    have h2 : (gst_rtp_buffer_get_timestamp r2 - gst_rtp_buffer_get_timestamp r1) / 64 % 256 =
        (gst_rtp_buffer_get_timestamp r2 - gst_rtp_buffer_get_timestamp r1) / 64 := by omega
    have h3 : r1.pkt.payload.length / 256 % 4 = r1.pkt.payload.length / 256 := by omega
    rw [h1, h2, h3]
  · exact create_red_packet_payload_type _ _ _ _ pkt hdata
  · simp [guint_incr]
  · rfl

/-- Witness of C8: the scenario of the specification, timestamps 100 and 160, with
output payload type 100. -/
theorem end_to_end_distance_one_witness :
    ∃ s1 s2 red pkt,
      gst_rtp_red_enc_chain
          (gst_rtp_red_enc_set_property
            (gst_rtp_red_enc_set_property (gst_rtp_red_enc_init (instance_zeroed scenario_caps))
              (PropertySet.PROP_PT 100))
            (PropertySet.PROP_DISTANCE 1)) frame_A =
        some (s1, [Downstream.buffer frame_A false]) ∧
      s1.rtp_history = [{ pt := 8, timestamp := 100, payload := [65] }] ∧
      gst_rtp_red_enc_chain s1 frame_B =
        some (s2, [Downstream.event (GstEvent.caps { scenario_caps with payload := some 100 }),
          Downstream.buffer red true]) ∧
      red.data = GstBufferData.rtp pkt ∧
      pkt.payload = [128 + 8, (160 - 100) / 64, (160 - 100) % 64 * 4 + 1 / 256, 1 % 256, 9] ++
        [65] ++ [66] ∧
      pkt.payload_type = 100 ∧
      s2.num_sent = 1 ∧
      s2.rtp_history = [{ pt := 9, timestamp := 160, payload := [66] }] :=
  end_to_end_distance_one scenario_caps 100 frame_A frame_B ⟨frame_A, packet_A⟩
    ⟨frame_B, packet_B⟩ rfl rfl (by decide) (by decide) (by decide)

/-! ## Caps announcements -/

/-- C10, the code at the failing input: bare RED packets are allowed and the
output payload type is 96; the first frame goes out as a RED packet with payload
type 96 after a caps event announcing 96. The payload type is then set to 97,
and set to 97 once more: the second call finds the value unchanged and clears
`send_caps`. The next frame goes out as a RED packet with payload type 97 with
no caps event before it, so the last payload type announced downstream is 96. -/
theorem payload_type_announcement_lost :
    (run (gst_rtp_red_enc_init (instance_zeroed scenario_caps))
        [Input.set_property (PropertySet.PROP_ALLOW_NO_RED_BLOCKS true),
          Input.set_property (PropertySet.PROP_PT 96),
          Input.chain frame_A,
          Input.set_property (PropertySet.PROP_PT 97),
          Input.set_property (PropertySet.PROP_PT 97),
          Input.chain frame_B]).map Prod.snd =
      some [Downstream.event (GstEvent.caps { scenario_caps with payload := some 96 }),
        Downstream.buffer
          { metadata := 1,
            data := GstBufferData.rtp { packet_A with payload_type := 96, payload := [8, 65] } }
          true,
        Downstream.buffer
          { metadata := 2,
            data := GstBufferData.rtp { packet_B with payload_type := 97, payload := [9, 66] } }
          true] ∧
    (run (gst_rtp_red_enc_init (instance_zeroed scenario_caps))
        [Input.set_property (PropertySet.PROP_ALLOW_NO_RED_BLOCKS true),
          Input.set_property (PropertySet.PROP_PT 96),
          Input.chain frame_A,
          Input.set_property (PropertySet.PROP_PT 97)]).map (fun r => r.1.send_caps) =
      some true ∧
    (run (gst_rtp_red_enc_init (instance_zeroed scenario_caps))
        [Input.set_property (PropertySet.PROP_ALLOW_NO_RED_BLOCKS true),
          Input.set_property (PropertySet.PROP_PT 96),
          Input.chain frame_A,
          Input.set_property (PropertySet.PROP_PT 97),
          Input.set_property (PropertySet.PROP_PT 97)]).map (fun r => r.1.send_caps) =
      some false := by
  decide

/-! ## Trim and push, operation by operation -/

/-- C17: `_red_history_trim` with bound `b` keeps the first `min |h| b` items of
the history, counted from the head, in unchanged order, and drops the others
from the tail; nothing else in the element changes; it is the identity when
`|h| ≤ b`, and trimming twice with the same bound is trimming once. -/
theorem trim_keeps_most_recent (s : GstRtpRedEnc) (b : Nat) :
    (_red_history_trim s b).rtp_history =
        s.rtp_history.take (min s.rtp_history.length b) ∧
      (_red_history_trim s b).rtp_history.length = min s.rtp_history.length b ∧
      (∃ evicted, s.rtp_history = (_red_history_trim s b).rtp_history ++ evicted) ∧
      _red_history_trim s b = { s with rtp_history := (_red_history_trim s b).rtp_history } ∧
      (s.rtp_history.length ≤ b → _red_history_trim s b = s) ∧
      _red_history_trim (_red_history_trim s b) b = _red_history_trim s b := by
  have hmin : s.rtp_history.take (min s.rtp_history.length b) = s.rtp_history.take b := by
    by_cases h : s.rtp_history.length ≤ b
    · rw [Nat.min_eq_left h, List.take_of_length_le (Nat.le_refl _), List.take_of_length_le h]
    · rw [Nat.min_eq_right (by omega)]
  refine ⟨?_, ?_, ?_, ?_, ?_, ?_⟩
  · rw [trim_history, hmin]
  · rw [trim_history, List.length_take]
    omega
  · exact ⟨s.rtp_history.drop b, by rw [trim_history, List.take_append_drop]⟩
  · rw [trim_fields]
  · intro h
    rw [trim_fields, List.take_of_length_le h]
  · rw [trim_fields, trim_fields]
    simp only [List.take_take, Nat.min_self]

/-- C18: `_red_history_prepend` with bound `b`, for a frame with a payload: with
`b = 0` the element is unchanged (whatever the payload pointer); with `|h| < b`
the new history is the item of the frame followed by all of `h`; with
`|h| ≥ b > 0` it is the item of the frame followed by `h` without its last
item, of the same length as `h`. The item carries the payload type and timestamp
of the frame and the payload given. -/
theorem prepend_cases (s : GstRtpRedEnc) (rtp : GstRTPBuffer) (payload : List Nat) (b : Nat) :
    (∀ p, _red_history_prepend s rtp p 0 = some s) ∧
      (s.rtp_history.length < b →
        _red_history_prepend s rtp (some payload) b =
          some { s with
            rtp_history :=
              { pt := gst_rtp_buffer_get_payload_type rtp,
                timestamp := gst_rtp_buffer_get_timestamp rtp,
                payload := payload } :: s.rtp_history }) ∧
      (0 < b → b ≤ s.rtp_history.length →
        _red_history_prepend s rtp (some payload) b =
            some { s with
              rtp_history :=
                { pt := gst_rtp_buffer_get_payload_type rtp,
                  timestamp := gst_rtp_buffer_get_timestamp rtp,
                  payload := payload } :: s.rtp_history.dropLast } ∧
          ({ pt := gst_rtp_buffer_get_payload_type rtp,
             timestamp := gst_rtp_buffer_get_timestamp rtp,
             payload := payload } :: s.rtp_history.dropLast).length = s.rtp_history.length) := by
  refine ⟨fun p => prepend_zero s rtp p, ?_, ?_⟩
  · intro h
    rw [prepend_some s rtp payload b (by omega), if_neg (by omega)]
    rfl
  · intro hb h
    constructor
    · rw [prepend_some s rtp payload b (by omega), if_pos h]
      rfl
    · simp only [List.length_cons, List.length_dropLast]
      omega

/-! ## Assertions and the caps event -/

theorem step_total (s : GstRtpRedEnc) (i : Input) : ∃ s' out, step s i = some (s', out) := by
  cases i with
  | chain b => exact chain_total s b
  | event e =>
    cases e with
    | caps c => exact ⟨_, _, rfl⟩
    | other t => exact ⟨_, _, rfl⟩
  | set_property p => exact ⟨_, _, rfl⟩

theorem run_total : ∀ (inputs : List Input) (s : GstRtpRedEnc),
    ∃ s' out, run s inputs = some (s', out) := by
  intro inputs
  induction inputs with
  | nil => intro s; exact ⟨s, [], rfl⟩
  | cons i rest ih =>
    intro s
    obtain ⟨s1, o1, h1⟩ := step_total s i
    obtain ⟨s2, o2, h2⟩ := ih s1
    exact ⟨s2, o1 ++ o2, run_cons_some s s1 s2 i rest o1 o2 h1 h2⟩

theorem push_nonred_total (s : GstRtpRedEnc) (rtp : GstRTPBuffer) (buffer : GstBuffer)
    (d : Nat) : ∃ r, _push_nonred_packet s rtp buffer d = some r := by
  unfold _push_nonred_packet
  by_cases hd : d = 0
  · subst hd
    simp only [prepend_zero]
    exact ⟨_, rfl⟩
  · simp only [Nat.pos_of_ne_zero hd, if_true, prepend_some _ _ _ _ hd]
    exact ⟨_, rfl⟩

theorem push_red_total (s : GstRtpRedEnc) (rtp : GstRTPBuffer) (buffer : GstBuffer)
    (blk : Option RTPHistItem) (d : Nat) :
    ∃ r, _push_red_packet s rtp buffer blk d = some r := by
  unfold _push_red_packet
  by_cases hd : d = 0
  · subst hd
    simp only [prepend_zero]
    exact ⟨_, rfl⟩
  · simp only [prepend_some _ _ _ _ hd]
    exact ⟨_, rfl⟩

/-- C19: in every state of the element, reachable or not, and so after any
interleaving of frames, events and property changes: every sequence of calls
runs to the end without a failed assertion; when the chain function looks up a
candidate, after its trim, the history holds at most `distance` items, so
`_red_history_get_redundant_block` returns (a candidate or none) instead of
failing its assertion; and the two functions that push to the history never
fail the assertion that the payload is not null, nor does the chain function. -/
theorem assertions_never_fail (s : GstRtpRedEnc) (inputs : List Input) :
    (∃ s' out, run s inputs = some (s', out)) ∧
      (_red_history_trim s s.distance).rtp_history.length ≤ s.distance ∧
      (∀ ts, ∃ blk, _red_history_get_redundant_block (_red_history_trim s s.distance) ts
        s.distance = some blk) ∧
      (∀ rtp buffer d, ∃ r, _push_nonred_packet s rtp buffer d = some r) ∧
      (∀ rtp buffer blk d, ∃ r, _push_red_packet s rtp buffer blk d = some r) ∧
      (∀ buffer, ∃ r, gst_rtp_red_enc_chain s buffer = some r) := by
  have hlen : (_red_history_trim s s.distance).rtp_history.length ≤ s.distance := by
    rw [trim_history, List.length_take]
    omega
  refine ⟨run_total inputs s, hlen, ?_, push_nonred_total s, push_red_total s, ?_⟩
  · intro ts
    exact get_redundant_block_total _ ts s.distance hlen
  · intro buffer
    obtain ⟨s', out, h⟩ := chain_total s buffer
    exact ⟨_, h⟩

/-- C20: for a caps event on the sink pad, when the tracked mode is RED or bare
RED packets are allowed, the event sent downstream carries the upstream caps
with the `payload` field replaced by the output payload type, and the tracked
mode becomes RED, nothing else changing; otherwise the event is sent downstream
as it came and the element is unchanged. An event of another kind is sent
downstream as it came, with the element unchanged. -/
theorem caps_event_rewritten (s : GstRtpRedEnc) (c : GstCaps) :
    (s.is_current_caps_red = true ∨ s.allow_no_red_blocks = true →
        gst_rtp_red_enc_event_sink s (GstEvent.caps c) =
          ({ s with is_current_caps_red := true },
            [Downstream.event (GstEvent.caps { c with payload := some s.pt })])) ∧
      (s.is_current_caps_red = false → s.allow_no_red_blocks = false →
        gst_rtp_red_enc_event_sink s (GstEvent.caps c) =
          (s, [Downstream.event (GstEvent.caps c)])) ∧
      (∀ tag, gst_rtp_red_enc_event_sink s (GstEvent.other tag) =
        (s, [Downstream.event (GstEvent.other tag)])) := by
  refine ⟨?_, ?_, fun tag => rfl⟩
  · intro h
    have hb : (s.is_current_caps_red || s.allow_no_red_blocks) = true := by
      rcases h with h | h <;> simp [h]
    simp only [gst_rtp_red_enc_event_sink, hb, if_true, _create_caps_event]
  · intro h1 h2
    simp [gst_rtp_red_enc_event_sink, h1, h2]

/-! ## Outer header of the RED packet -/

theorem copy_csrc_getElem? (inp : GstRTPBuffer) : ∀ (n i : Nat) (csrc : List Nat),
    i + n ≤ csrc.length →
    ∀ j : Nat, (copy_csrc inp n i csrc)[j]? =
      if i ≤ j ∧ j < i + n then some (gst_rtp_buffer_get_csrc inp j) else csrc[j]? := by
  intro n
  induction n with
  | zero =>
    intro i csrc _ j
    simp only [copy_csrc]
    rw [if_neg (by omega)]
  | succ k ih =>
    intro i csrc h j
    simp only [copy_csrc]
    rw [ih (i + 1) _ (by simp only [List.length_set]; omega) j]
    by_cases h1 : i + 1 ≤ j ∧ j < i + 1 + k
    · rw [if_pos h1, if_pos (by omega)]
    · rw [if_neg h1]
      by_cases h2 : i = j
      · subst h2
        rw [if_pos (by omega), List.getElem?_set_self (by omega)]
      · rw [if_neg (by omega), List.getElem?_set_ne h2]

theorem copy_csrc_all (inp : GstRTPBuffer) :
    copy_csrc inp inp.pkt.csrc.length 0 (List.replicate inp.pkt.csrc.length 0) =
      inp.pkt.csrc.map (fun c => c % 4294967296) := by
  apply List.ext_getElem?
  intro j
  rw [copy_csrc_getElem? inp _ 0 _ (by simp)]
  by_cases hj : j < inp.pkt.csrc.length
  · rw [if_pos (by omega)]
    simp only [gst_rtp_buffer_get_csrc, List.getElem?_map, List.getElem?_eq_getElem hj,
      Option.map_some', List.getD_eq_getElem?_getD, Option.getD_some]
  · rw [if_neg (by omega)]
    rw [List.getElem?_eq_none (by simp; omega), List.getElem?_eq_none (by simp; omega)]

theorem alloc_header (s : GstRtpRedEnc) (blk : Option RTPHistItem) (rtp : GstRTPBuffer) :
    ∃ pkt, (_alloc_red_packet_and_fill_headers s blk rtp).data = GstBufferData.rtp pkt ∧
      (_alloc_red_packet_and_fill_headers s blk rtp).metadata = rtp.buffer.metadata ∧
      pkt.seq = gst_rtp_buffer_get_seq rtp ∧ pkt.marker = gst_rtp_buffer_get_marker rtp ∧
      pkt.timestamp = gst_rtp_buffer_get_timestamp rtp ∧
      pkt.ssrc = gst_rtp_buffer_get_ssrc rtp ∧
      pkt.csrc = rtp.pkt.csrc.map (fun c => c % 4294967296) ∧
      pkt.payload_type = s.pt ∧ pkt.extension = false := by
  refine ⟨_, rfl, rfl, rfl, rfl, rfl, rfl, ?_, rfl, rfl⟩
  simp only [gst_rtp_buffer_new_allocate, gst_rtp_buffer_get_csrc_count]
  exact copy_csrc_all rtp

/-- C12: for every element state, every redundant block or none, and every input
frame, the packet produced by `_alloc_red_packet_and_fill_headers` maps as an
RTP packet whose sequence number, marker bit, timestamp, SSRC and contributing
sources (same count, same values at the same positions) read the same as those
of the input frame; its payload type is the output payload type `pt` of the
element and it has no header extension, whether the input has one or not. The
packet returned by `_create_red_packet` has the same header. -/
theorem red_packet_outer_header (s : GstRtpRedEnc) (blk : Option RTPHistItem)
    (rtp : GstRTPBuffer) :
    ∃ red_rtp, gst_rtp_buffer_map (_alloc_red_packet_and_fill_headers s blk rtp) = some red_rtp ∧
      gst_rtp_buffer_get_seq red_rtp = gst_rtp_buffer_get_seq rtp ∧
      gst_rtp_buffer_get_marker red_rtp = gst_rtp_buffer_get_marker rtp ∧
      gst_rtp_buffer_get_timestamp red_rtp = gst_rtp_buffer_get_timestamp rtp ∧
      gst_rtp_buffer_get_ssrc red_rtp = gst_rtp_buffer_get_ssrc rtp ∧
      gst_rtp_buffer_get_csrc_count red_rtp = gst_rtp_buffer_get_csrc_count rtp ∧
      (∀ i, gst_rtp_buffer_get_csrc red_rtp i = gst_rtp_buffer_get_csrc rtp i) ∧
      red_rtp.pkt.payload_type = s.pt ∧
      (s.pt < 128 → gst_rtp_buffer_get_payload_type red_rtp = s.pt) ∧
      gst_rtp_buffer_get_extension red_rtp = false ∧
      (∀ main_block, ∃ out_rtp,
        gst_rtp_buffer_map (_create_red_packet s rtp blk main_block) = some out_rtp ∧
          { out_rtp.pkt with payload := [] } = { red_rtp.pkt with payload := [] }) := by
  obtain ⟨pkt, hdata, _, hseq, hmark, hts, hssrc, hcsrc, hpt, hext⟩ := alloc_header s blk rtp
  refine ⟨⟨_alloc_red_packet_and_fill_headers s blk rtp, pkt⟩, ?_, ?_, ?_, ?_, ?_, ?_, ?_, hpt,
    ?_, hext, ?_⟩
  · simp only [gst_rtp_buffer_map, hdata]
  · simp only [gst_rtp_buffer_get_seq, hseq]
    omega
  · exact hmark
  · simp only [gst_rtp_buffer_get_timestamp, hts]
    omega
  · simp only [gst_rtp_buffer_get_ssrc, hssrc]
    omega
  · simp only [gst_rtp_buffer_get_csrc_count, hcsrc, List.length_map]
  · intro i
    simp only [gst_rtp_buffer_get_csrc, hcsrc, List.getD_eq_getElem?_getD, List.getElem?_map]
    cases rtp.pkt.csrc[i]? with
    | none => rfl
    | some v =>
      simp only [Option.map_some', Option.getD_some]
      omega
  · intro h
    simp only [gst_rtp_buffer_get_payload_type, hpt]
    omega
  · intro main_block
    cases blk with
    | none =>
      refine ⟨⟨_create_red_packet s rtp none main_block,
        { pkt with payload := pkt.payload ++ main_block }⟩, ?_, rfl⟩
      simp only [_create_red_packet, gst_buffer_append, hdata, gst_rtp_buffer_map]
    | some R =>
      refine ⟨⟨_create_red_packet s rtp (some R) main_block,
        { pkt with payload := (pkt.payload ++ R.payload) ++ main_block }⟩, ?_, rfl⟩
      simp only [_create_red_packet, gst_buffer_append, hdata, gst_rtp_buffer_map]

/-! ## Frames with no redundant block -/

theorem create_red_packet_bare (s : GstRtpRedEnc) (rtp : GstRTPBuffer) (main_block : List Nat) :
    ∃ pkt, (_create_red_packet s rtp none main_block).data = GstBufferData.rtp pkt ∧
      pkt.payload = [gst_rtp_buffer_get_payload_type rtp] ++ main_block := by
  refine ⟨_, rfl, ?_⟩
  have hpt : gst_rtp_buffer_get_payload_type rtp < 128 := by
    unfold gst_rtp_buffer_get_payload_type; omega
  simp [_alloc_red_packet_and_fill_headers, gst_rtp_buffer_new_allocate,
    rtp_red_block_header_get_length, rtp_red_block_set_is_redundant,
    rtp_red_block_set_payload_type, List.replicate]
  omega

theorem no_candidate_cases (s : GstRtpRedEnc) (ts : Nat) :
    (s.distance = 0 →
        _red_history_get_redundant_block (_red_history_trim s s.distance) ts s.distance =
          some none) ∧
      (s.rtp_history = [] →
        _red_history_get_redundant_block (_red_history_trim s s.distance) ts s.distance =
          some none) ∧
      (∀ c, (_red_history_trim s s.distance).rtp_history.getLast? = some c →
        ¬ (guint32_sub ts c.timestamp ≤ 16383 ∧ c.payload.length ≤ 1023) →
        _red_history_get_redundant_block (_red_history_trim s s.distance) ts s.distance =
          some none) := by
  refine ⟨?_, ?_, ?_⟩
  · intro h
    simp [_red_history_get_redundant_block, h]
  · intro h
    simp [_red_history_get_redundant_block, trim_history, h]
  · intro c hc hrej
    have hd : s.distance ≠ 0 := by
      intro h0
      rw [trim_history, h0] at hc
      simp at hc
    rw [get_redundant_block_of_last _ ts s.distance c hd hc, if_neg hrej]

/-- C13: with bare RED packets allowed, for every RTP frame for which no
candidate is selected, the chain function sends exactly one packet, a RED
packet, whose payload is `1 + Lp` bytes: one header byte with top bit 0 and low
7 bits the payload type of the frame, then the payload of the frame; the sent
counter is incremented by one (as a 32-bit counter). No candidate is selected
when the distance is 0, when the history is empty, and when the candidate fails
the offset or the length check. -/
theorem bare_red_packet (s : GstRtpRedEnc) (buffer : GstBuffer) (rtp : GstRTPBuffer)
    (hmap : gst_rtp_buffer_map buffer = some rtp) (hallow : s.allow_no_red_blocks = true)
    (hnone : _red_history_get_redundant_block (_red_history_trim s s.distance)
      (gst_rtp_buffer_get_timestamp rtp) s.distance = some none) :
    ((s.distance = 0 →
        _red_history_get_redundant_block (_red_history_trim s s.distance)
          (gst_rtp_buffer_get_timestamp rtp) s.distance = some none) ∧
      (s.rtp_history = [] →
        _red_history_get_redundant_block (_red_history_trim s s.distance)
          (gst_rtp_buffer_get_timestamp rtp) s.distance = some none) ∧
      (∀ c, (_red_history_trim s s.distance).rtp_history.getLast? = some c →
        ¬ (guint32_sub (gst_rtp_buffer_get_timestamp rtp) c.timestamp ≤ 16383 ∧
          c.payload.length ≤ 1023) →
        _red_history_get_redundant_block (_red_history_trim s s.distance)
          (gst_rtp_buffer_get_timestamp rtp) s.distance = some none)) ∧
    (∃ s' out red pkt b, gst_rtp_red_enc_chain s buffer = some (s', out) ∧
        tagged_packets out = [(red, true)] ∧ red.data = GstBufferData.rtp pkt ∧
        pkt.payload = [b] ++ rtp.pkt.payload ∧
        pkt.payload.length = 1 + rtp.pkt.payload.length ∧
        b / 128 = 0 ∧ b % 128 = gst_rtp_buffer_get_payload_type rtp ∧
        s'.num_sent = guint_incr s.num_sent ∧
        (s.num_sent < 4294967295 → s'.num_sent = s.num_sent + 1)) := by
  refine ⟨no_candidate_cases s _, ?_⟩
  have hcfg : ¬ (s.distance = 0 ∧ s.allow_no_red_blocks = false) := by simp [hallow]
  obtain ⟨blk, hblk, hch⟩ := chain_mapped s buffer rtp hcfg hmap
  rw [hnone] at hblk
  injection hblk with hblk
  subst hblk
  rw [if_neg (by simp [hallow])] at hch
  obtain ⟨pkt, hdata, hpay⟩ := create_red_packet_bare (_red_history_trim s s.distance) rtp
    (gst_rtp_buffer_get_payload_buffer rtp)
  have hpt : gst_rtp_buffer_get_payload_type rtp < 128 := by
    unfold gst_rtp_buffer_get_payload_type; omega
  have hst := pad_push_state
    { s with
      rtp_history :=
        if s.distance = 0 then []
        else rtp_hist_item_new rtp (gst_rtp_buffer_get_payload_buffer rtp) ::
          s.rtp_history.take (s.distance - 1),
      num_sent := guint_incr s.num_sent }
    (_create_red_packet (_red_history_trim s s.distance) rtp none
      (gst_rtp_buffer_get_payload_buffer rtp)) true
  have hout := pad_push_out
    { s with
      rtp_history :=
        if s.distance = 0 then []
        else rtp_hist_item_new rtp (gst_rtp_buffer_get_payload_buffer rtp) ::
          s.rtp_history.take (s.distance - 1),
      num_sent := guint_incr s.num_sent }
    (_create_red_packet (_red_history_trim s s.distance) rtp none
      (gst_rtp_buffer_get_payload_buffer rtp)) true
  generalize _pad_push _ _ true = p at hch hst hout
  obtain ⟨s', out⟩ := p
  simp only at hst hout
  refine ⟨s', out, _, pkt, _, hch, ?_, hdata, hpay, ?_, ?_, ?_, ?_, ?_⟩
  · rw [hout]
    split <;> rfl
  · rw [hpay]
    simp only [List.length_append, List.length_cons, List.length_nil,
      gst_rtp_buffer_get_payload_buffer]
  · omega
  · omega
  · rw [hst]
  · intro h
    rw [hst]
    simp only [guint_incr]
    omega

/-- Witness of C13: the first frame of the scenario on a new element with bare
RED packets allowed. -/
theorem bare_red_packet_witness :
    ((({ scenario_start with allow_no_red_blocks := true } : GstRtpRedEnc).distance = 0 →
        _red_history_get_redundant_block
          (_red_history_trim { scenario_start with allow_no_red_blocks := true } 1)
          (gst_rtp_buffer_get_timestamp ⟨frame_A, packet_A⟩) 1 = some none) ∧
      (({ scenario_start with allow_no_red_blocks := true } : GstRtpRedEnc).rtp_history = [] →
        _red_history_get_redundant_block
          (_red_history_trim { scenario_start with allow_no_red_blocks := true } 1)
          (gst_rtp_buffer_get_timestamp ⟨frame_A, packet_A⟩) 1 = some none) ∧
      (∀ c, (_red_history_trim { scenario_start with allow_no_red_blocks := true }
          1).rtp_history.getLast? = some c →
        ¬ (guint32_sub (gst_rtp_buffer_get_timestamp ⟨frame_A, packet_A⟩) c.timestamp ≤ 16383 ∧
          c.payload.length ≤ 1023) →
        _red_history_get_redundant_block
          (_red_history_trim { scenario_start with allow_no_red_blocks := true } 1)
          (gst_rtp_buffer_get_timestamp ⟨frame_A, packet_A⟩) 1 = some none)) ∧
    (∃ s' out red pkt b,
        gst_rtp_red_enc_chain { scenario_start with allow_no_red_blocks := true } frame_A =
          some (s', out) ∧
        tagged_packets out = [(red, true)] ∧ red.data = GstBufferData.rtp pkt ∧
        pkt.payload = [b] ++ [65] ∧
        pkt.payload.length = 1 + 1 ∧
        b / 128 = 0 ∧ b % 128 = gst_rtp_buffer_get_payload_type ⟨frame_A, packet_A⟩ ∧
        s'.num_sent = guint_incr 0 ∧
        ((0 : Nat) < 4294967295 → s'.num_sent = 0 + 1)) :=
  bare_red_packet { scenario_start with allow_no_red_blocks := true } frame_A
    ⟨frame_A, packet_A⟩ rfl rfl (by decide)

/-- C15: with distance above 0 and bare RED packets not allowed, for every RTP
frame for which no candidate is selected, the chain function sends exactly one
packet, the frame itself, as a plain packet, and afterwards the head of the
history is an item with the payload type, the timestamp and the payload of the
frame, followed by the `distance - 1` most recent items held before; the sent
counter is unchanged. -/
theorem nonred_frame_is_pushed (s : GstRtpRedEnc) (buffer : GstBuffer) (rtp : GstRTPBuffer)
    (hmap : gst_rtp_buffer_map buffer = some rtp) (hd : 0 < s.distance)
    (hallow : s.allow_no_red_blocks = false)
    (hnone : _red_history_get_redundant_block (_red_history_trim s s.distance)
      (gst_rtp_buffer_get_timestamp rtp) s.distance = some none) :
    ∃ s' out, gst_rtp_red_enc_chain s buffer = some (s', out) ∧
      tagged_packets out = [(buffer, false)] ∧
      s'.rtp_history.head? =
        some { pt := gst_rtp_buffer_get_payload_type rtp,
               timestamp := gst_rtp_buffer_get_timestamp rtp, payload := rtp.pkt.payload } ∧
      s'.rtp_history =
        { pt := gst_rtp_buffer_get_payload_type rtp,
          timestamp := gst_rtp_buffer_get_timestamp rtp, payload := rtp.pkt.payload } ::
          s.rtp_history.take (s.distance - 1) ∧
      s'.num_sent = s.num_sent := by
  have hcfg : ¬ (s.distance = 0 ∧ s.allow_no_red_blocks = false) := fun h => by omega
  obtain ⟨blk, hblk, hch⟩ := chain_mapped s buffer rtp hcfg hmap
  rw [hnone] at hblk
  injection hblk with hblk
  subst hblk
  rw [if_pos ⟨rfl, hallow⟩] at hch
  have hst := pad_push_state
    { s with
      rtp_history := rtp_hist_item_new rtp (gst_rtp_buffer_get_payload_buffer rtp) ::
        s.rtp_history.take (s.distance - 1) } buffer false
  have hout := pad_push_out
    { s with
      rtp_history := rtp_hist_item_new rtp (gst_rtp_buffer_get_payload_buffer rtp) ::
        s.rtp_history.take (s.distance - 1) } buffer false
  generalize _pad_push _ buffer false = p at hch hst hout
  obtain ⟨s', out⟩ := p
  simp only at hst hout
  refine ⟨s', out, hch, ?_, ?_, ?_, ?_⟩
  · rw [hout]
    split <;> rfl
  · rw [hst]
    rfl
  · rw [hst]
    rfl
  · rw [hst]

/-- Witness of C15: the first frame of the scenario, with the history still empty. -/
theorem nonred_frame_is_pushed_witness :
    ∃ s' out, gst_rtp_red_enc_chain scenario_start frame_A = some (s', out) ∧
      tagged_packets out = [(frame_A, false)] ∧
      s'.rtp_history.head? = some { pt := 8, timestamp := 100, payload := [65] } ∧
      s'.rtp_history =
        { pt := 8, timestamp := 100, payload := [65] } :: scenario_start.rtp_history.take (1 - 1) ∧
      s'.num_sent = scenario_start.num_sent :=
  nonred_frame_is_pushed scenario_start frame_A ⟨frame_A, packet_A⟩ rfl (by decide) rfl
    (by decide)

/-! ## One packet per frame -/

theorem eq_some_pair {α β : Type} (x : Option (α × β)) (p : α × β) (h : x = some p) :
    x = some (p.1, p.2) := h

theorem pad_push_out_congr (s t : GstRtpRedEnc) (b : GstBuffer) (r : Bool)
    (h1 : t.send_caps = s.send_caps) (h2 : t.is_current_caps_red = s.is_current_caps_red)
    (h3 : t.sinkpad_caps = s.sinkpad_caps) (h4 : t.pt = s.pt) :
    (_pad_push t b r).2 = (_pad_push s b r).2 := by
  rw [pad_push_out, pad_push_out, h1, h2, h3, h4]

theorem create_red_packet_congr (s t : GstRtpRedEnc) (rtp : GstRTPBuffer)
    (blk : Option RTPHistItem) (main_block : List Nat) (h : t.pt = s.pt) :
    _create_red_packet t rtp blk main_block = _create_red_packet s rtp blk main_block := by
  simp only [_create_red_packet, _alloc_red_packet_and_fill_headers, h]

theorem chain_mapped_trace (s : GstRtpRedEnc) (b : GstBuffer) (rtp : GstRTPBuffer)
    (hcfg : ¬ (s.distance = 0 ∧ s.allow_no_red_blocks = false))
    (hmap : gst_rtp_buffer_map b = some rtp) :
    ∃ blk s', _red_history_get_redundant_block (_red_history_trim s s.distance)
        (gst_rtp_buffer_get_timestamp rtp) s.distance = some blk ∧
      gst_rtp_red_enc_chain s b =
        some (s',
          if blk = none ∧ s.allow_no_red_blocks = false then (_pad_push s b false).2
          else (_pad_push s
            (_create_red_packet s rtp blk (gst_rtp_buffer_get_payload_buffer rtp)) true).2) := by
  obtain ⟨blk, hblk, hch⟩ := chain_mapped s b rtp hcfg hmap
  by_cases hc : blk = none ∧ s.allow_no_red_blocks = false
  · rw [if_pos hc] at hch
    have hout := pad_push_out_congr s
      { s with
        rtp_history := rtp_hist_item_new rtp (gst_rtp_buffer_get_payload_buffer rtp) ::
          s.rtp_history.take (s.distance - 1) } b false rfl rfl rfl rfl
    generalize _pad_push _ b false = p at hch hout
    refine ⟨blk, p.1, hblk, ?_⟩
    rw [hch, if_pos hc, ← hout]
  · rw [if_neg hc] at hch
    have hout := pad_push_out_congr s
      { s with
        rtp_history :=
          if s.distance = 0 then []
          else rtp_hist_item_new rtp (gst_rtp_buffer_get_payload_buffer rtp) ::
            s.rtp_history.take (s.distance - 1),
        num_sent := guint_incr s.num_sent }
      (_create_red_packet (_red_history_trim s s.distance) rtp blk
        (gst_rtp_buffer_get_payload_buffer rtp)) true rfl rfl rfl rfl
    rw [create_red_packet_congr s (_red_history_trim s s.distance) rtp blk _ rfl] at hch hout
    generalize _pad_push _ _ true = p at hch hout
    refine ⟨blk, p.1, hblk, ?_⟩
    rw [hch, if_neg hc, ← hout]

theorem tagged_packets_pad_push (s : GstRtpRedEnc) (b : GstBuffer) (r : Bool) :
    tagged_packets (_pad_push s b r).2 = [(b, r)] := by
  rw [pad_push_out]
  split <;> rfl

theorem create_red_packet_suffix (s : GstRtpRedEnc) (rtp : GstRTPBuffer)
    (blk : Option RTPHistItem) (main_block : List Nat) :
    ∃ pkt pre, (_create_red_packet s rtp blk main_block).data = GstBufferData.rtp pkt ∧
      pkt.payload = pre ++ main_block ∧ 1 ≤ pre.length := by
  cases blk with
  | none =>
    obtain ⟨pkt, hd, hp⟩ := create_red_packet_bare s rtp main_block
    exact ⟨pkt, _, hd, hp, by simp⟩
  | some R =>
    obtain ⟨pkt, hd, hp⟩ := create_red_packet_with_block s R rtp main_block
    exact ⟨pkt, _, hd, hp, by simp⟩

/-- C11: in every state of the element, reachable or not, with every
configuration, for every RTP frame the chain function returns without error and
sends exactly one packet: either the frame itself, as a plain packet, or a RED
packet built from it whose payload ends with the payload of the frame. When the
candidate is rejected by the offset or the length check, everything sent
downstream is what would be sent with an empty history: the frame itself when
bare RED packets are not allowed, and the bare RED packet (one header byte, then
the payload of the frame) when they are. -/
theorem one_packet_per_frame (s : GstRtpRedEnc) (buffer : GstBuffer) (rtp : GstRTPBuffer)
    (hmap : gst_rtp_buffer_map buffer = some rtp) :
    ∃ s' out p r, gst_rtp_red_enc_chain s buffer = some (s', out) ∧
      tagged_packets out = [(p, r)] ∧
      ((p = buffer ∧ r = false) ∨
        (r = true ∧ ∃ blk pkt pre,
          p = _create_red_packet s rtp blk (gst_rtp_buffer_get_payload_buffer rtp) ∧
            p.data = GstBufferData.rtp pkt ∧ pkt.payload = pre ++ rtp.pkt.payload)) ∧
      (∀ c, (_red_history_trim s s.distance).rtp_history.getLast? = some c →
        ¬ (guint32_sub (gst_rtp_buffer_get_timestamp rtp) c.timestamp ≤ 16383 ∧
          c.payload.length ≤ 1023) →
        (∃ s'', gst_rtp_red_enc_chain { s with rtp_history := [] } buffer = some (s'', out)) ∧
          (s.allow_no_red_blocks = false → p = buffer ∧ r = false) ∧
          (s.allow_no_red_blocks = true → r = true ∧
            ∃ pkt, p.data = GstBufferData.rtp pkt ∧
              pkt.payload = [gst_rtp_buffer_get_payload_type rtp] ++ rtp.pkt.payload)) := by
  by_cases hcfg : s.distance = 0 ∧ s.allow_no_red_blocks = false
  · refine ⟨_, _, buffer, false, eq_some_pair _ _ (chain_passthrough s buffer hcfg.1 hcfg.2),
      tagged_packets_pad_push _ _ _, Or.inl ⟨rfl, rfl⟩, ?_⟩
    intro c hc _
    rw [trim_history, hcfg.1] at hc
    simp at hc
  · obtain ⟨blk, s', hblk, hch⟩ := chain_mapped_trace s buffer rtp hcfg hmap
    by_cases hc : blk = none ∧ s.allow_no_red_blocks = false
    · rw [if_pos hc] at hch
      refine ⟨s', _, buffer, false, hch, tagged_packets_pad_push _ _ _, Or.inl ⟨rfl, rfl⟩, ?_⟩
      intro c _ _
      obtain ⟨blk', s'', hblk', hch'⟩ := chain_mapped_trace { s with rtp_history := [] } buffer rtp
        hcfg hmap
      rw [(no_candidate_cases { s with rtp_history := [] } _).2.1 rfl] at hblk'
      injection hblk' with hblk'
      subst hblk'
      rw [if_pos ⟨rfl, hc.2⟩] at hch'
      refine ⟨⟨s'', ?_⟩, fun _ => ⟨rfl, rfl⟩, ?_⟩
      · rw [hch']
        congr 2
        exact pad_push_out_congr s _ buffer false rfl rfl rfl rfl
      · intro h
        rw [hc.2] at h
        cases h
    · rw [if_neg hc] at hch
      obtain ⟨pkt, pre, hdata, hpay, _⟩ := create_red_packet_suffix s rtp blk
        (gst_rtp_buffer_get_payload_buffer rtp)
      refine ⟨s', _, _, true, hch, tagged_packets_pad_push _ _ _,
        Or.inr ⟨rfl, blk, pkt, pre, rfl, hdata, hpay⟩, ?_⟩
      intro c hlast hrej
      have hnone := (no_candidate_cases s (gst_rtp_buffer_get_timestamp rtp)).2.2 c hlast hrej
      rw [hnone] at hblk
      injection hblk with hblk
      subst hblk
      have hallow : s.allow_no_red_blocks = true := by
        cases ha : s.allow_no_red_blocks
        · exact absurd ⟨rfl, ha⟩ hc
        · rfl
      obtain ⟨blk', s'', hblk', hch'⟩ := chain_mapped_trace { s with rtp_history := [] } buffer rtp
        hcfg hmap
      rw [(no_candidate_cases { s with rtp_history := [] } _).2.1 rfl] at hblk'
      injection hblk' with hblk'
      subst hblk'
      rw [if_neg (by simp [hallow])] at hch'
      refine ⟨⟨s'', ?_⟩, ?_, ?_⟩
      · rw [hch']
        congr 2
        rw [create_red_packet_congr s { s with rtp_history := [] } rtp none _ rfl]
        exact pad_push_out_congr s _ _ true rfl rfl rfl rfl
      · intro h
        rw [hallow] at h
        cases h
      · intro _
        obtain ⟨pkt', hd', hp'⟩ := create_red_packet_bare s rtp
          (gst_rtp_buffer_get_payload_buffer rtp)
        exact ⟨rfl, pkt', hd', hp'⟩

/-- Witness of C11: the second frame of the scenario, in the state reached after
the first. -/
theorem one_packet_per_frame_witness :
    ∃ s' out p r, gst_rtp_red_enc_chain scenario_after_A frame_B = some (s', out) ∧
      tagged_packets out = [(p, r)] ∧
      ((p = frame_B ∧ r = false) ∨
        (r = true ∧ ∃ blk pkt pre,
          p = _create_red_packet scenario_after_A ⟨frame_B, packet_B⟩ blk
            (gst_rtp_buffer_get_payload_buffer ⟨frame_B, packet_B⟩) ∧
            p.data = GstBufferData.rtp pkt ∧ pkt.payload = pre ++ [66])) ∧
      (∀ c, (_red_history_trim scenario_after_A 1).rtp_history.getLast? = some c →
        ¬ (guint32_sub (gst_rtp_buffer_get_timestamp ⟨frame_B, packet_B⟩) c.timestamp ≤ 16383 ∧
          c.payload.length ≤ 1023) →
        (∃ s'', gst_rtp_red_enc_chain { scenario_after_A with rtp_history := [] } frame_B =
          some (s'', out)) ∧
          (scenario_after_A.allow_no_red_blocks = false → p = frame_B ∧ r = false) ∧
          (scenario_after_A.allow_no_red_blocks = true → r = true ∧
            ∃ pkt, p.data = GstBufferData.rtp pkt ∧
              pkt.payload = [gst_rtp_buffer_get_payload_type ⟨frame_B, packet_B⟩] ++ [66])) :=
  one_packet_per_frame scenario_after_A frame_B ⟨frame_B, packet_B⟩ rfl

/-! ## The sent counter -/

theorem map_eq_some (b : GstBuffer) (rtp : GstRTPBuffer) (h : gst_rtp_buffer_map b = some rtp) :
    b.data = GstBufferData.rtp rtp.pkt ∧ rtp.buffer = b := by
  unfold gst_rtp_buffer_map at h
  split at h
  · rename_i pkt hd
    injection h with h
    subst h
    exact ⟨hd, rfl⟩
  · cases h

theorem red_packet_ne_frame (s : GstRtpRedEnc) (b : GstBuffer) (rtp : GstRTPBuffer)
    (blk : Option RTPHistItem) (hmap : gst_rtp_buffer_map b = some rtp) :
    _create_red_packet s rtp blk (gst_rtp_buffer_get_payload_buffer rtp) ≠ b := by
  intro h
  obtain ⟨pkt, pre, hdata, hpay, hpre⟩ := create_red_packet_suffix s rtp blk
    (gst_rtp_buffer_get_payload_buffer rtp)
  rw [h, (map_eq_some b rtp hmap).1] at hdata
  injection hdata with hdata
  rw [← hdata] at hpay
  have := congrArg List.length hpay
  simp only [List.length_append, gst_rtp_buffer_get_payload_buffer] at this
  omega

theorem chain_num_sent (s s' : GstRtpRedEnc) (b : GstBuffer) (out : List Downstream)
    (h : gst_rtp_red_enc_chain s b = some (s', out)) :
    ∃ p, data_packets out = [p] ∧
      ((p = b ∧ s'.num_sent = s.num_sent) ∨
        (p ≠ b ∧ s'.num_sent = guint_incr s.num_sent ∧
          ∃ rtp blk, gst_rtp_buffer_map b = some rtp ∧
            p = _create_red_packet s rtp blk (gst_rtp_buffer_get_payload_buffer rtp))) := by
  have hs' : s' = (s', out).1 := rfl
  have ho : out = (s', out).2 := rfl
  by_cases hcfg : s.distance = 0 ∧ s.allow_no_red_blocks = false
  · rw [chain_passthrough s b hcfg.1 hcfg.2] at h
    injection h with h
    rw [← h, pad_push_state] at hs'
    rw [← h] at ho
    refine ⟨b, by rw [ho]; exact data_packets_pad_push _ _ _, Or.inl ⟨rfl, by rw [hs']⟩⟩
  · cases hmap : gst_rtp_buffer_map b with
    | none =>
      rw [chain_unmapped s b hcfg hmap] at h
      injection h with h
      rw [← h, pad_push_state] at hs'
      rw [← h] at ho
      refine ⟨b, by rw [ho]; exact data_packets_pad_push _ _ _, Or.inl ⟨rfl, by rw [hs']⟩⟩
    | some rtp =>
      obtain ⟨blk, _, hch⟩ := chain_mapped s b rtp hcfg hmap
      rw [hch] at h
      by_cases hc : blk = none ∧ s.allow_no_red_blocks = false
      · rw [if_pos hc] at h
        injection h with h
        rw [← h, pad_push_state] at hs'
        rw [← h] at ho
        refine ⟨b, by rw [ho]; exact data_packets_pad_push _ _ _, Or.inl ⟨rfl, by rw [hs']⟩⟩
      · rw [if_neg hc] at h
        injection h with h
        rw [← h, pad_push_state] at hs'
        rw [← h] at ho
        rw [create_red_packet_congr s (_red_history_trim s s.distance) rtp blk _ rfl] at ho
        refine ⟨_, by rw [ho]; exact data_packets_pad_push _ _ _,
          Or.inr ⟨red_packet_ne_frame s b rtp blk hmap, by rw [hs'], rtp, blk, rfl, rfl⟩⟩

theorem step_other_num_sent (s s1 : GstRtpRedEnc) (i : Input) (o1 : List Downstream)
    (h : step s i = some (s1, o1)) (hi : ∀ b, i ≠ Input.chain b) :
    s1.num_sent = s.num_sent ∧ data_packets o1 = [] := by
  cases i with
  | chain b => exact absurd rfl (hi b)
  | event e =>
    cases e with
    | caps c =>
      simp only [step] at h
      injection h with h
      injection h with ha hb
      subst ha
      subst hb
      by_cases hc : (s.is_current_caps_red || s.allow_no_red_blocks) = true
      · simp [gst_rtp_red_enc_event_sink, hc, data_packets]
      · simp [gst_rtp_red_enc_event_sink, hc, data_packets]
    | other t =>
      simp only [step, gst_rtp_red_enc_event_sink] at h
      injection h with h
      injection h with ha hb
      subst ha
      subst hb
      exact ⟨rfl, rfl⟩
  | set_property p =>
    simp only [step] at h
    injection h with h
    injection h with ha hb
    subst ha
    subst hb
    cases p <;> exact ⟨rfl, rfl⟩

theorem run_num_sent : ∀ (inputs : List Input) (s : GstRtpRedEnc),
    s.num_sent < 4294967296 →
    ∃ s' out, run s inputs = some (s', out) ∧
      (data_packets out).length = (frames_of inputs).length ∧
      s'.num_sent =
        (s.num_sent + red_packets_emitted (frames_of inputs) (data_packets out)) %
          4294967296 := by
  intro inputs
  induction inputs with
  | nil =>
    intro s hs
    refine ⟨s, [], rfl, rfl, ?_⟩
    simp only [frames_of, data_packets, red_packets_emitted]
    omega
  | cons i rest ih =>
    intro s hs
    obtain ⟨s1, o1, h1⟩ := step_total s i
    by_cases hi : ∃ b, i = Input.chain b
    · obtain ⟨b, hb⟩ := hi
      subst hb
      obtain ⟨p, hp, hcase⟩ := chain_num_sent s s1 b o1 h1
      have hs1 : s1.num_sent < 4294967296 := by
        rcases hcase with ⟨_, h⟩ | ⟨_, h, _⟩
        · omega
        · rw [h]; unfold guint_incr; omega
      obtain ⟨s2, o2, h2, hlen, hnum⟩ := ih s1 hs1
      have hdp : data_packets (o1 ++ o2) = p :: data_packets o2 := by
        rw [data_packets_append, hp]
        rfl
      refine ⟨s2, o1 ++ o2, run_cons_some s s1 s2 _ rest o1 o2 h1 h2, ?_, ?_⟩
      · rw [hdp]
        simp only [frames_of, List.length_cons, hlen]
      · rw [hdp, hnum]
        simp only [frames_of, red_packets_emitted]
        rcases hcase with ⟨hpb, h⟩ | ⟨hpb, h, _⟩
        · rw [if_pos hpb, h]
          omega
        · rw [if_neg hpb, h]
          unfold guint_incr
          omega
    · have hi' : ∀ b, i ≠ Input.chain b := fun b hb => hi ⟨b, hb⟩
      obtain ⟨hn, hd⟩ := step_other_num_sent s s1 i o1 h1 hi'
      obtain ⟨s2, o2, h2, hlen, hnum⟩ := ih s1 (by omega)
      have hdp : data_packets (o1 ++ o2) = data_packets o2 := by
        rw [data_packets_append, hd]
        rfl
      have hfr : frames_of (i :: rest) = frames_of rest := by
        cases i with
        | chain b => exact absurd rfl (hi' b)
        | event e => rfl
        | set_property p => rfl
      refine ⟨s2, o1 ++ o2, run_cons_some s s1 s2 _ rest o1 o2 h1 h2, ?_, ?_⟩
      · rw [hdp, hfr, hlen]
      · rw [hdp, hfr, hnum, hn]

/-- C14: from a state whose sent counter is a 32-bit value `n0` (0 on a new
element), after any sequence of frames, events and property changes the sent
counter is `n0` plus the number of RED packets sent during the sequence, modulo
`2 ^ 32`; one packet is sent per frame. Each call of the chain function sends
one packet: either the frame itself, and the counter is unchanged, or a RED
packet built from the frame (which differs from the frame), and the counter is
increased by 1 modulo `2 ^ 32`. -/
theorem sent_counter_counts_red_packets (s : GstRtpRedEnc) (hs : s.num_sent < 4294967296)
    (inputs : List Input) :
    (∃ s' out, run s inputs = some (s', out) ∧
        (data_packets out).length = (frames_of inputs).length ∧
        s'.num_sent =
          (s.num_sent + red_packets_emitted (frames_of inputs) (data_packets out)) %
            4294967296) ∧
      (∀ buffer, ∃ s' out p, gst_rtp_red_enc_chain s buffer = some (s', out) ∧
        data_packets out = [p] ∧
        ((p = buffer ∧ s'.num_sent = s.num_sent) ∨
          (p ≠ buffer ∧ s'.num_sent = (s.num_sent + 1) % 4294967296 ∧
            ∃ rtp blk, gst_rtp_buffer_map buffer = some rtp ∧
              p = _create_red_packet s rtp blk (gst_rtp_buffer_get_payload_buffer rtp)))) := by
  refine ⟨run_num_sent inputs s hs, ?_⟩
  intro buffer
  obtain ⟨s', out, h⟩ := chain_total s buffer
  obtain ⟨p, hp, hcase⟩ := chain_num_sent s s' buffer out h
  exact ⟨s', out, p, h, hp, hcase⟩

/-- Witness of C14: the two frames of the scenario, a change of the output
payload type, and the first frame again. -/
theorem sent_counter_counts_red_packets_witness :
    (∃ s' out,
        run scenario_start
          [Input.chain frame_A, Input.chain frame_B,
            Input.set_property (PropertySet.PROP_PT 100), Input.chain frame_A] =
          some (s', out) ∧
        (data_packets out).length =
          (frames_of [Input.chain frame_A, Input.chain frame_B,
            Input.set_property (PropertySet.PROP_PT 100), Input.chain frame_A]).length ∧
        s'.num_sent =
          (scenario_start.num_sent +
            red_packets_emitted
              (frames_of [Input.chain frame_A, Input.chain frame_B,
                Input.set_property (PropertySet.PROP_PT 100), Input.chain frame_A])
              (data_packets out)) % 4294967296) ∧
      (∀ buffer, ∃ s' out p, gst_rtp_red_enc_chain scenario_start buffer = some (s', out) ∧
        data_packets out = [p] ∧
        ((p = buffer ∧ s'.num_sent = scenario_start.num_sent) ∨
          (p ≠ buffer ∧ s'.num_sent = (scenario_start.num_sent + 1) % 4294967296 ∧
            ∃ rtp blk, gst_rtp_buffer_map buffer = some rtp ∧
              p = _create_red_packet scenario_start rtp blk
                (gst_rtp_buffer_get_payload_buffer rtp)))) :=
  sent_counter_counts_red_packets scenario_start (by decide)
    [Input.chain frame_A, Input.chain frame_B,
      Input.set_property (PropertySet.PROP_PT 100), Input.chain frame_A]

/-! ## Passthrough and the tracked mode -/

/-- C16 (as the code has it): with distance 0 and bare RED packets not allowed,
every frame is sent as it is, as a plain packet, whatever the tracked mode: the
tracked mode after the step is plain and no announcement is pending; a caps
event with the caps of the sink pad goes before the packet exactly when an
announcement was requested or the tracked mode was RED. When the tracked mode
was plain and no announcement was requested, the packet is sent alone and the
tracked mode is unchanged. -/
theorem passthrough_is_sent_plain (s : GstRtpRedEnc) (buffer : GstBuffer)
    (hd : s.distance = 0) (hallow : s.allow_no_red_blocks = false) :
    ∃ s' out, gst_rtp_red_enc_chain s buffer = some (s', out) ∧
      out =
        (if s.send_caps = true ∨ s.is_current_caps_red = true then
          [Downstream.event (GstEvent.caps s.sinkpad_caps)]
        else []) ++ [Downstream.buffer buffer false] ∧
      s'.is_current_caps_red = false ∧ s'.send_caps = false ∧
      (s.is_current_caps_red = false → s.send_caps = false →
        out = [Downstream.buffer buffer false] ∧
          s'.is_current_caps_red = s.is_current_caps_red) := by
  have hch := chain_passthrough s buffer hd hallow
  have hst := pad_push_state { s with rtp_history := [] } buffer false
  have hout := pad_push_out { s with rtp_history := [] } buffer false
  generalize _pad_push _ buffer false = p at hch hst hout
  obtain ⟨s', out⟩ := p
  simp only at hst hout
  have hout' : out =
      (if s.send_caps = true ∨ s.is_current_caps_red = true then
        [Downstream.event (GstEvent.caps s.sinkpad_caps)]
      else []) ++ [Downstream.buffer buffer false] := by
    rw [hout]
    cases s.is_current_caps_red <;> cases s.send_caps <;> simp
  refine ⟨s', out, hch, hout', by rw [hst], by rw [hst], ?_⟩
  intro h1 h2
  constructor
  · rw [hout', h1, h2]
    simp
  · rw [hst, h1]

/-- Witness of C16: a frame through a new element. -/
theorem passthrough_is_sent_plain_witness :
    ∃ s' out,
      gst_rtp_red_enc_chain (gst_rtp_red_enc_init (instance_zeroed scenario_caps)) frame_A =
        some (s', out) ∧
      out =
        (if (gst_rtp_red_enc_init (instance_zeroed scenario_caps)).send_caps = true ∨
            (gst_rtp_red_enc_init (instance_zeroed scenario_caps)).is_current_caps_red = true then
          [Downstream.event
            (GstEvent.caps (gst_rtp_red_enc_init (instance_zeroed scenario_caps)).sinkpad_caps)]
        else []) ++ [Downstream.buffer frame_A false] ∧
      s'.is_current_caps_red = false ∧ s'.send_caps = false ∧
      ((gst_rtp_red_enc_init (instance_zeroed scenario_caps)).is_current_caps_red = false →
        (gst_rtp_red_enc_init (instance_zeroed scenario_caps)).send_caps = false →
        out = [Downstream.buffer frame_A false] ∧
          s'.is_current_caps_red =
            (gst_rtp_red_enc_init (instance_zeroed scenario_caps)).is_current_caps_red) :=
  passthrough_is_sent_plain (gst_rtp_red_enc_init (instance_zeroed scenario_caps)) frame_A
    rfl rfl

/-- C16, counterexample: after the two frames of the scenario the tracked mode
is RED; the distance is then set to 0, with bare RED packets not allowed and no
announcement requested. The next frame is sent as a plain packet after a caps
event with the caps of the sink pad, and the tracked mode becomes plain: it is
not sent under the tracked mode, and the mode after the step differs from the
mode before it. -/
theorem passthrough_leaves_red_mode :
    (run scenario_start
        [Input.chain frame_A, Input.chain frame_B,
          Input.set_property (PropertySet.PROP_DISTANCE 0)]).map Prod.fst =
      some { scenario_start with
        distance := 0, num_sent := 1, is_current_caps_red := true, send_caps := false,
        rtp_history := [item_B] } ∧
    gst_rtp_red_enc_chain
        { scenario_start with
          distance := 0, num_sent := 1, is_current_caps_red := true, send_caps := false,
          rtp_history := [item_B] } frame_A =
      some ({ scenario_start with
          distance := 0, num_sent := 1, is_current_caps_red := false, send_caps := false,
          rtp_history := [] },
        [Downstream.event (GstEvent.caps scenario_caps), Downstream.buffer frame_A false]) := by
  decide

/-! ## Caps announcements along a run of frames -/

theorem pad_push_eq (s : GstRtpRedEnc) (buffer : GstBuffer) (is_red : Bool) :
    _pad_push s buffer is_red =
      ({ s with send_caps := false, is_current_caps_red := is_red },
        (if s.send_caps = true ∨ is_red ≠ s.is_current_caps_red then
          [Downstream.event
            (if is_red = true then _create_caps_event s.sinkpad_caps s.pt
              else GstEvent.caps s.sinkpad_caps)]
        else []) ++ [Downstream.buffer buffer is_red]) := by
  apply Prod.ext
  · exact pad_push_state s buffer is_red
  · exact pad_push_out s buffer is_red

theorem chain_step_trace (s : GstRtpRedEnc) (b : GstBuffer) :
    ∃ s1 p, gst_rtp_red_enc_chain s b =
        some (s1,
          (if s.send_caps = true ∨
              packet_mode s.distance s.allow_no_red_blocks s.is_current_caps_red b p ≠
                s.is_current_caps_red then
            [Downstream.event
              (if packet_mode s.distance s.allow_no_red_blocks s.is_current_caps_red b p = true
                then _create_caps_event s.sinkpad_caps s.pt
                else GstEvent.caps s.sinkpad_caps)]
          else []) ++
            [Downstream.buffer p
              (packet_mode s.distance s.allow_no_red_blocks s.is_current_caps_red b p)]) ∧
      (p = b ∨ ∃ rtp blk, gst_rtp_buffer_map b = some rtp ∧
        p = _create_red_packet s rtp blk (gst_rtp_buffer_get_payload_buffer rtp)) ∧
      s1.send_caps = false ∧
      s1.is_current_caps_red =
        packet_mode s.distance s.allow_no_red_blocks s.is_current_caps_red b p ∧
      s1.distance = s.distance ∧ s1.allow_no_red_blocks = s.allow_no_red_blocks ∧
      s1.pt = s.pt ∧ s1.sinkpad_caps = s.sinkpad_caps := by
  by_cases hcfg : s.distance = 0 ∧ s.allow_no_red_blocks = false
  · have hm : packet_mode s.distance s.allow_no_red_blocks s.is_current_caps_red b b = false := by
      simp [packet_mode, hcfg.1, hcfg.2]
    have h := chain_passthrough s b hcfg.1 hcfg.2
    rw [pad_push_eq] at h
    dsimp only at h
    refine ⟨_, b, (by rw [hm]; exact h),
      Or.inl rfl, ?_, ?_, ?_, ?_, ?_, ?_⟩
    · rfl
    · rw [hm]
    all_goals rfl
  · cases hmap : gst_rtp_buffer_map b with
    | none =>
      have hm : packet_mode s.distance s.allow_no_red_blocks s.is_current_caps_red b b =
          s.is_current_caps_red := by
        simp only [packet_mode, if_neg hcfg, hmap]
      have h := chain_unmapped s b hcfg hmap
      rw [pad_push_eq] at h
      dsimp only at h
      refine ⟨_, b, (by rw [hm]; exact h),
        Or.inl rfl, ?_, ?_, ?_, ?_, ?_, ?_⟩
      · rfl
      · rw [hm]
      all_goals rfl
    | some rtp =>
      obtain ⟨blk, _, hch⟩ := chain_mapped s b rtp hcfg hmap
      by_cases hc : blk = none ∧ s.allow_no_red_blocks = false
      · have hm : packet_mode s.distance s.allow_no_red_blocks s.is_current_caps_red b b =
            false := by
          simp [packet_mode, hcfg, hmap]
        rw [if_pos hc, pad_push_eq] at hch
        dsimp only at hch
        refine ⟨_, b, (by rw [hm]; exact hch),
          Or.inl rfl, ?_, ?_, ?_, ?_, ?_, ?_⟩
        · rfl
        · rw [hm]
        all_goals rfl
      · have hne := red_packet_ne_frame s b rtp blk hmap
        have hm : packet_mode s.distance s.allow_no_red_blocks s.is_current_caps_red b
            (_create_red_packet s rtp blk (gst_rtp_buffer_get_payload_buffer rtp)) = true := by
          simp [packet_mode, hcfg, hmap, hne]
        rw [if_neg hc, create_red_packet_congr s (_red_history_trim s s.distance) rtp blk _ rfl,
          pad_push_eq] at hch
        dsimp only at hch
        refine ⟨_, _create_red_packet s rtp blk (gst_rtp_buffer_get_payload_buffer rtp),
          (by rw [hm]; exact hch),
          Or.inr ⟨rtp, blk, rfl, rfl⟩, ?_, ?_, ?_, ?_, ?_, ?_⟩
        · rfl
        · rw [hm]
        all_goals rfl

theorem run_announced_trace (bufs : List GstBuffer) : ∀ (s : GstRtpRedEnc),
    ∃ s' out, run s (bufs.map Input.chain) = some (s', out) ∧
      (data_packets out).length = bufs.length ∧
      (∀ fp ∈ bufs.zip (data_packets out), fp.2 = fp.1 ∨
        ∃ rtp blk, gst_rtp_buffer_map fp.1 = some rtp ∧
          fp.2 = _create_red_packet s rtp blk (gst_rtp_buffer_get_payload_buffer rtp)) ∧
      out = announced_trace s.sinkpad_caps s.pt s.distance s.allow_no_red_blocks s.send_caps
        s.is_current_caps_red (bufs.zip (data_packets out)) := by
  induction bufs with
  | nil =>
    intro s
    refine ⟨s, [], rfl, rfl, ?_, rfl⟩
    intro fp hfp
    simp at hfp
  | cons b rest ih =>
    intro s
    obtain ⟨s1, p, hch, hp, hsend, hmode, hd, ha, hpt, hcaps⟩ := chain_step_trace s b
    obtain ⟨s2, o2, hrun, hlen, hpk, htrace⟩ := ih s1
    rw [hcaps, hpt, hd, ha, hsend, hmode] at htrace
    generalize ho1 : ((if s.send_caps = true ∨
        packet_mode s.distance s.allow_no_red_blocks s.is_current_caps_red b p ≠
          s.is_current_caps_red then
        [Downstream.event
          (if packet_mode s.distance s.allow_no_red_blocks s.is_current_caps_red b p = true
            then _create_caps_event s.sinkpad_caps s.pt
            else GstEvent.caps s.sinkpad_caps)]
      else []) ++
        [Downstream.buffer p
          (packet_mode s.distance s.allow_no_red_blocks s.is_current_caps_red b p)]) = o1
      at hch
    have hdp1 : data_packets o1 = [p] := by
      rw [← ho1]
      split <;> rfl
    have hdp : data_packets (o1 ++ o2) = p :: data_packets o2 := by
      rw [data_packets_append, hdp1]
      rfl
    refine ⟨s2, o1 ++ o2, run_cons_some s s1 s2 _ _ o1 o2 hch hrun, ?_, ?_, ?_⟩
    · rw [hdp]
      simp only [List.length_cons, hlen]
    · rw [hdp]
      intro fp hfp
      simp only [List.zip_cons_cons, List.mem_cons] at hfp
      rcases hfp with hfp | hfp
      · subst hfp
        exact hp
      · rcases hpk fp hfp with h | ⟨rtp, blk, h1, h2⟩
        · exact Or.inl h
        · exact Or.inr ⟨rtp, blk, h1, by rw [h2, create_red_packet_congr s s1 rtp blk _ hpt]⟩
    · rw [hdp, List.zip_cons_cons]
      simp only [announced_trace]
      rw [← htrace, ← ho1]
      simp only [List.append_assoc, List.singleton_append]

/-- C9 (as the code has it): `_pad_push`, called with a buffer and the framing
mode `is_red` of that buffer, sends a caps event immediately before the buffer
exactly when `is_red` differs from the tracked mode or an announcement was
requested (`send_caps`), then tracks `is_red` with no request pending. For every
sequence of frames processed with nothing in between, from any state, one packet
is sent per frame, each packet is the frame itself or the RED packet built from
it, and the downstream trace is the one prescribed by the rule: a caps event
immediately before a packet exactly when the framing mode of that packet differs
from the mode of the packet before it (for the first packet: from the tracked
mode, or when an announcement was requested), and no caps event anywhere
else. -/
theorem announcement_before_packet (s : GstRtpRedEnc) (bufs : List GstBuffer) :
    (∀ buffer is_red, _pad_push s buffer is_red =
        ({ s with send_caps := false, is_current_caps_red := is_red },
          (if s.send_caps = true ∨ is_red ≠ s.is_current_caps_red then
            [Downstream.event
              (if is_red = true then _create_caps_event s.sinkpad_caps s.pt
                else GstEvent.caps s.sinkpad_caps)]
          else []) ++ [Downstream.buffer buffer is_red])) ∧
      (∃ s' out, run s (bufs.map Input.chain) = some (s', out) ∧
        (data_packets out).length = bufs.length ∧
        (∀ fp ∈ bufs.zip (data_packets out), fp.2 = fp.1 ∨
          ∃ rtp blk, gst_rtp_buffer_map fp.1 = some rtp ∧
            fp.2 = _create_red_packet s rtp blk (gst_rtp_buffer_get_payload_buffer rtp)) ∧
        out = announced_trace s.sinkpad_caps s.pt s.distance s.allow_no_red_blocks s.send_caps
          s.is_current_caps_red (bufs.zip (data_packets out))) :=
  ⟨pad_push_eq s, run_announced_trace bufs s⟩

/-- C9, counterexample: with bare RED packets allowed and output payload type
96, frame A goes out as a RED packet and the tracked mode is RED; the payload
type is then set to 97, which requests an announcement. Frame B, processed next
with nothing in between, goes out as a RED packet, the same mode as the tracked
one, and yet a caps event is sent immediately before it. -/
theorem announcement_without_mode_change :
    (run (gst_rtp_red_enc_init (instance_zeroed scenario_caps))
        [Input.set_property (PropertySet.PROP_ALLOW_NO_RED_BLOCKS true),
          Input.set_property (PropertySet.PROP_PT 96),
          Input.chain frame_A,
          Input.set_property (PropertySet.PROP_PT 97)]).map Prod.fst =
      some { pt := 97, num_sent := 1, distance := 0, allow_no_red_blocks := true,
             is_current_caps_red := true, send_caps := true, rtp_history := [],
             sinkpad_caps := scenario_caps } ∧
    gst_rtp_red_enc_chain
        { pt := 97, num_sent := 1, distance := 0, allow_no_red_blocks := true,
          is_current_caps_red := true, send_caps := true, rtp_history := [],
          sinkpad_caps := scenario_caps } frame_B =
      some ({ pt := 97, num_sent := 2, distance := 0, allow_no_red_blocks := true,
              is_current_caps_red := true, send_caps := false, rtp_history := [],
              sinkpad_caps := scenario_caps },
        [Downstream.event (GstEvent.caps { scenario_caps with payload := some 97 }),
          Downstream.buffer
            { metadata := 2,
              data := GstBufferData.rtp { packet_B with payload_type := 97, payload := [9, 66] } }
            true]) := by
  decide

end RtpRedEnc
